import Mathlib

/-! forge-vuer: the `ViewerService` adapter

A shallow embedding of `src/services/ViewerService.js`.  The adapter wires a Vue component to
the Autodesk Forge viewer SDK.  Its methods are embedded as pure functions from the adapter
state to an `Outcome`: the state afterwards, the ordered list of observable effects (calls made
on the SDK, notifications emitted through `VueInstance.$emit`, console output) and the value
thrown to the caller, if any.

Conventions of the embedding.

* A JavaScript string is a Lean `String`.  Indices are counted in UTF-16 code units.
* The SDK and the host are external.  What they return is given by the fields of `Viewing`,
  `Document` and `Vue`; what is called on them is recorded as an `Effect`.
* `Document.load` and `Initializer` are the two SDK calls the source guards with `try`; they may
  throw synchronously.  Every other call on the SDK, the host or the document is taken to
  return.  The callbacks handed to the SDK run later, as separate steps
  (`onDocumentLoadSuccess`, `onDocumentLoadError`, `onModelLoaded`, `onModelLoadError`).
-/

set_option autoImplicit false

namespace ForgeVuer

/-! JavaScript values -/

/-- JavaScript values, as far as the adapter can tell them apart.  Functions and opaque objects
(DOM elements, SDK objects, viewers) are known by reference; `emitterFunction name` is the
closure returned by `CreateEmitterFunction(vue, name)`; `error name message` is an exception
object with that `name` and `message` (`new Error(m)` is `error "Error" m`; the message of an
exception raised by the platform is chosen by the engine and left empty); `record` is a plain
object, its own enumerable properties listed in property order. -/
inductive Value where
  | undefined
  | null
  | boolean (b : Bool)
  | number (n : Int)
  | string (s : String)
  | function (ref : Nat)
  | emitterFunction (name : String)
  | object (ref : Nat)
  | error (name message : String)
  | record (fields : List (String × Value))

namespace Value

mutual
/-- Structural equality test on values -/
def beq : Value → Value → Bool
  | undefined, undefined => true
  | null, null => true
  | boolean a, boolean b => a == b
  | number a, number b => a == b
  | string a, string b => a == b
  | function a, function b => a == b
  | emitterFunction a, emitterFunction b => a == b
  | object a, object b => a == b
  | error a m, error b n => a == b && m == n
  | record a, record b => beqFields a b
  | _, _ => false
/-- Structural equality test on property lists -/
def beqFields : List (String × Value) → List (String × Value) → Bool
  | [], [] => true
  | (k, v) :: xs, (l, w) :: ys => k == l && beq v w && beqFields xs ys
  | _, _ => false
end

mutual
theorem eq_of_beq : ∀ a b : Value, beq a b = true → a = b
  | undefined, b => by cases b <;> simp [beq]
  | null, b => by cases b <;> simp [beq]
  | boolean a, b => by cases b <;> simp [beq]
  | number a, b => by cases b <;> simp [beq]
  | string a, b => by cases b <;> simp [beq]
  | function a, b => by cases b <;> simp [beq]
  | emitterFunction a, b => by cases b <;> simp [beq]
  | object a, b => by cases b <;> simp [beq]
  | error a m, b => by cases b <;> simp [beq]
  | record a, b => by
      cases b <;> simp [beq]
      exact eq_of_beqFields a _
theorem eq_of_beqFields : ∀ a b : List (String × Value), beqFields a b = true → a = b
  | [], b => by cases b <;> simp [beqFields]
  | (k, v) :: xs, b => by
      cases b with
      | nil => simp [beqFields]
      | cons y ys =>
        obtain ⟨l, w⟩ := y
        simp only [beqFields, Bool.and_eq_true, beq_iff_eq, List.cons.injEq, Prod.mk.injEq]
        rintro ⟨⟨h1, h2⟩, h3⟩
        exact ⟨⟨h1, eq_of_beq v w h2⟩, eq_of_beqFields xs ys h3⟩
end

mutual
theorem beq_self : ∀ a : Value, beq a a = true
  | undefined | null | boolean _ | number _ | string _ | function _ | emitterFunction _
  | object _ | error _ _ => by simp [beq]
  | record a => by simp [beq]; exact beqFields_self a
theorem beqFields_self : ∀ a : List (String × Value), beqFields a a = true
  | [] => by simp [beqFields]
  | (k, v) :: xs => by simp [beqFields, beq_self v, beqFields_self xs]
end

instance : DecidableEq Value := fun a b =>
  if h : beq a b = true then isTrue (eq_of_beq a b h)
  else isFalse (fun e => h (e ▸ beq_self a))

/-- The loose test `v == null`: true of `null` and of `undefined` only -/
def isNullish : Value → Bool
  | undefined => true
  | null => true
  | _ => false

/-- The `typeof` operator -/
def typeof : Value → String
  | undefined => "undefined"
  | null => "object"
  | boolean _ => "boolean"
  | number _ => "number"
  | string _ => "string"
  | function _ => "function"
  | emitterFunction _ => "function"
  | object _ => "object"
  | error _ _ => "object"
  | record _ => "object"

/-- Whether a value is an object or `null`, the values the setter of `__proto__` accepts as a
prototype -/
def isObjectOrNull : Value → Bool
  | undefined => false
  | boolean _ => false
  | number _ => false
  | string _ => false
  | _ => true

end Value

/-! Strings -/

/-- Number of UTF-16 code units a character takes in a JavaScript string -/
def codeUnits (c : Char) : Nat := if c.toNat < 65536 then 1 else 2

/-- Search of `String.prototype.indexOf`: `position` is the index of the head of the list -/
def indexOfFrom (searchString : List Char) : List Char → Nat → Int
  | [], position => if searchString = [] then (position : Int) else -1
  | c :: rest, position =>
      if searchString.isPrefixOf (c :: rest) then (position : Int)
      else indexOfFrom searchString rest (position + codeUnits c)

/-- `s.indexOf(searchString)`: index of the first occurrence, or -1 -/
def indexOf (s searchString : String) : Int := indexOfFrom searchString.data s.data 0

/-- `s.endsWith(searchString)` -/
def endsWith (s searchString : String) : Bool := searchString.data.isSuffixOf s.data

/-! `atob`

The browser function `atob` is the forgiving-base64 decode of the WHATWG Infra standard; it
throws an `InvalidCharacterError` `DOMException` when the decode fails. -/

/-- ASCII whitespace: TAB, LF, FF, CR, SPACE -/
def isAsciiWhitespace (c : Char) : Bool :=
  c.toNat == 9 || c.toNat == 10 || c.toNat == 12 || c.toNat == 13 || c.toNat == 32

/-- Position of a character in the base64 alphabet `A-Z a-z 0-9 + /` -/
def base64Value (c : Char) : Option Nat :=
  let n := c.toNat
  if 65 ≤ n ∧ n ≤ 90 then some (n - 65)
  else if 97 ≤ n ∧ n ≤ 122 then some (n - 97 + 26)
  else if 48 ≤ n ∧ n ≤ 57 then some (n - 48 + 52)
  else if n = 43 then some 62
  else if n = 47 then some 63
  else none

/-- The positions of all characters, or `none` when one is outside the alphabet -/
def base64Values : List Char → Option (List Nat)
  | [] => some []
  | c :: rest =>
      match base64Value c, base64Values rest with
      | some v, some vs => some (v :: vs)
      | _, _ => none

/-- When the length is a multiple of four, one or two trailing `=` are removed -/
def removePadding (data : List Char) : List Char :=
  if data.length % 4 = 0 then
    if [Char.ofNat 61, Char.ofNat 61].isSuffixOf data then data.take (data.length - 2)
    else if [Char.ofNat 61].isSuffixOf data then data.take (data.length - 1)
    else data
  else data

/-- Four 6-bit values give three bytes; a rest of three gives two bytes (the last two bits are
discarded), a rest of two gives one byte (the last four bits are discarded) -/
def decodeSextets : List Nat → List Nat
  | a :: b :: c :: d :: rest =>
      let n := ((a * 64 + b) * 64 + c) * 64 + d
      (n / 65536) :: (n / 256 % 256) :: (n % 256) :: decodeSextets rest
  | [a, b, c] =>
      let n := ((a * 64 + b) * 64 + c) / 4
      [n / 256, n % 256]
  | [a, b] => [(a * 64 + b) / 16]
  | _ => []

/-- The exception `atob` throws -/
def InvalidCharacterError : Value := Value.error "InvalidCharacterError" ""

/-- `atob(data)`: the decoded binary string, or the thrown exception -/
def atob (data : String) : Except Value String :=
  let stripped := removePadding (data.data.filter (fun c => !isAsciiWhitespace c))
  if stripped.length % 4 = 1 then Except.error InvalidCharacterError
  else
    match base64Values stripped with
    | none => Except.error InvalidCharacterError
    | some sextets => Except.ok (String.mk ((decodeSextets sextets).map Char.ofNat))

/-! Plain objects used as maps -/

/-- A plain object: its own enumerable string-keyed properties, in the order `Object.keys`
lists them -/
abbrev JSObject := List (String × Value)

namespace JSObject

/-- `Object.keys(o)` -/
def keys (o : JSObject) : List String := o.map Prod.fst

/-- `Object.values(o)` -/
def values (o : JSObject) : List Value := o.map Prod.snd

/-- The property read `o[key]`: `undefined` when the key is absent -/
def get : JSObject → String → Value
  | [], _ => Value.undefined
  | (k, v) :: rest, key => if k = key then v else get rest key

/-- The property write `o[key] = value`, for a key that is not an array index: an existing
property keeps its place, a new one goes last -/
def set : JSObject → String → Value → JSObject
  | [], key, value => [(key, value)]
  | (k, v) :: rest, key, value =>
      if k = key then (k, value) :: rest else (k, v) :: set rest key value

/-- The object without the property `key`, as `delete o[key]` leaves it -/
def delete (o : JSObject) (key : String) : JSObject := o.filter (fun entry => entry.1 ≠ key)

/-- One turn of `Object.assign` on a target whose prototype is `Object.prototype`: the
assignment `dest[key] = value` (ECMAScript copies with `Set`, not by defining a property).  A
key other than `__proto__` becomes, or updates, an own property.  The key `__proto__` reaches
the accessor inherited from `Object.prototype` and creates no own property: a value that is
neither an object nor `null` is ignored; an object or `null` becomes the prototype of the
target, and what the target then exposes, and what later assignments do, depends on that
prototype, which a `JSObject` does not record: the result is `none` -/
def assignKey (dest : JSObject) (key : String) (value : Value) : Option JSObject :=
  if key = "__proto__" then
    if value.isObjectOrNull then none else some dest
  else some (set dest key value)

/-- The own properties of `dest` after `Object.assign(dest, source)`: every key of `source`, in
order, is read from `source` and assigned to `dest`; `none` once an assignment has replaced
the prototype of `dest` -/
def assignFrom (dest source : JSObject) : Option JSObject :=
  source.keys.foldl
    (fun acc key => acc.bind (fun d => assignKey d key (get source key))) (some dest)

/-- The own properties of `dest` after every property of `source` has been written to it as an
own property, in order -/
def copyFrom (dest source : JSObject) : JSObject :=
  source.keys.foldl (fun d key => set d key (get source key)) dest

end JSObject

/-! Objects by reference -/

/-- The plain objects alive, each at its reference -/
abbrev Store := List JSObject

namespace Store

/-- The object at a reference -/
def read (store : Store) (ref : Nat) : JSObject := store.getD ref []

/-- `Object.assign(dest, source)` on two references: the keys of the source are listed first,
then each is read from the source and assigned to the target; `none` once an assignment has
replaced the prototype of the target -/
def assign (store : Store) (dest source : Nat) : Option Store :=
  (store.read source).keys.foldl
    (fun acc key => acc.bind (fun st =>
      (JSObject.assignKey (st.read dest) key ((st.read source).get key)).map
        (fun o => st.set dest o)))
    (some store)

/-- `Object.assign(dest, ...sources)` for the sources at references `source`, `source + 1`, ...,
`count` of them -/
def assignAll (dest : Nat) : Store → Nat → Nat → Option Store
  | store, _, 0 => some store
  | store, source, count + 1 =>
      (store.assign dest source).bind (fun st => assignAll dest st (source + 1) count)

/-- `delete o[key]` on the object at reference `ref` -/
def delete (store : Store) (ref : Nat) (key : String) : Store :=
  store.set ref (JSObject.delete (store.read ref) key)

end Store

/-! The world outside the adapter -/

/-- The bound methods of the adapter that are handed to the SDK as callbacks -/
inductive Callback where
  | onDocumentLoadSuccess
  | onDocumentLoadError
  | onModelLoaded
  | onModelLoadError
  deriving DecidableEq

/-- The object built by `GetViewer3DConfig`: `{}`, or `{extensions: registered}` -/
structure Viewer3DConfig where
  extensions : Option (List String)
  deriving DecidableEq

/-- What one run of `Initializer(options, callback)` does before it gives control back: how
often it has invoked `callback`, and the value it throws, if it throws -/
structure InitializerRun where
  callbackCalls : Nat
  thrown : Option Value

/-- The SDK namespace `Autodesk.Viewing`, by what its members answer -/
structure Viewing where
  /-- The property read `AutodeskViewing[key]` on an event-constant key -/
  constant : String → Value
  /-- The member `Extension` -/
  Extension : Value
  /-- The value `Document.load(documentId, onSuccess, onError)` throws, if it throws -/
  DocumentLoad : String → Option Value
  /-- Reference of the object `new Private.GuiViewer3D(container, config)` evaluates to -/
  GuiViewer3D : Value → Viewer3DConfig → Nat
  /-- Value returned by `theExtensionManager.registerExtension(name, extended)` -/
  registerExtension : String → Value → Value
  /-- One run of `Initializer(options, callback)` -/
  Initializer : Value → InitializerRun

/-- The hosting Vue component -/
structure Vue where
  /-- `Object.keys(this.$listeners)` -/
  listeners : List String
  /-- The object `new ExtensionCtor(baseExtension, autodeskViewing)` evaluates to, for an
  extension function supplied by the host -/
  newExtension : Value → Value → Value

/-- The JavaScript platform -/
structure Platform where
  /-- Upper-case mapping of the characters outside ASCII (the Unicode case tables) -/
  unicodeUpper : Char → List Char
  /-- `document.getElementById(id)` -/
  getElementById : String → Value

/-- A loaded document, by what its methods answer -/
structure Document where
  /-- The array `doc.getRoot().search(...)` for the type `geometry` -/
  searchGeometry : List Value
  /-- `doc.getViewablePath(geometry)` -/
  getViewablePath : Value → Value
  /-- `doc.getPropertyDbPath()` -/
  getPropertyDbPath : Value

/-- Observable effects, in the order the adapter causes them -/
inductive Effect where
  /-- `VueInstance.$emit(name, payload)` -/
  | emit (name : String) (payload : Value)
  /-- `document.getElementById(containerId)` -/
  | getElementById (containerId : String)
  /-- `AutodeskViewing.Initializer(options, callback)` -/
  | Initializer (options : Value)
  /-- `AutodeskViewing.Document.load(documentId, onSuccess, onError)` -/
  | DocumentLoad (documentId : String) (onSuccess onError : Callback)
  /-- `new ExtensionCtor(baseExtension, autodeskViewing)` -/
  | newExtension (ExtensionCtor baseExtension : Value)
  /-- `autodeskViewing.theExtensionManager.registerExtension(name, extended)` -/
  | registerExtension (name : String) (extended : Value)
  /-- `new AutodeskViewing.Private.GuiViewer3D(container, config)` -/
  | newGuiViewer3D (container : Value) (config : Viewer3DConfig)
  /-- `viewer.start(svfUrl, modelOptions, onSuccess, onError)` -/
  | start (viewer svfUrl modelOptions : Value) (onSuccess onError : Callback)
  /-- `viewer.tearDown()` -/
  | tearDown (viewer : Value)
  /-- `viewer.load(svfUrl, modelOptions, onSuccess, onError)` -/
  | load (viewer svfUrl modelOptions : Value) (onSuccess onError : Callback)
  /-- `viewer.addEventListener(eventType, listener)` -/
  | addEventListener (viewer eventType listener : Value)
  /-- `console.log(message)` -/
  | consoleLog (message : String)
  deriving DecidableEq

/-! Module-level helpers of `ViewerService.js` -/

/-- Upper-case mapping of one character, as `String.prototype.toUpperCase` applies it -/
def upperChar (unicodeUpper : Char → List Char) (c : Char) : List Char :=
  if c.toNat < 128 then
    [if 97 ≤ c.toNat ∧ c.toNat ≤ 122 then Char.ofNat (c.toNat - 32) else c]
  else unicodeUpper c

/-- `s.toUpperCase()` -/
def toUpperCase (unicodeUpper : Char → List Char) (s : String) : String :=
  String.mk (s.data.flatMap (upperChar unicodeUpper))

/-- `VueToViewer3DEvent(eventName)`: upper case, every hyphen replaced by an underscore -/
def VueToViewer3DEvent (env : Platform) (eventName : String) : String :=
  String.mk ((toUpperCase env.unicodeUpper eventName).data.map
    (fun c => if c = Char.ofNat 45 then Char.ofNat 95 else c))

/-- The character of the constant name that stands for an ASCII character of the declared
name: an underscore for a hyphen, the capital for a small letter, the character itself
otherwise -/
def constantChar (c : Char) : Char :=
  if c = Char.ofNat 45 then Char.ofNat 95
  else if 97 ≤ c.toNat ∧ c.toNat ≤ 122 then Char.ofNat (c.toNat - 32)
  else c

/-- `CreateEmitterFunction(vue, name)`: the closure, as a value -/
def CreateEmitterFunction (name : String) : Value := Value.emitterFunction name

/-- A call `f(...prop)` of the closure `f` returned by `CreateEmitterFunction(vue, name)` on
argument objects, each given by its own enumerable properties.  The arguments are the objects
at references `0` to `prop.length - 1`, the object literal of the body is allocated after them.
The result is the argument objects as the call leaves them, and the effects of the call; it is
`none` when `Object.assign` has replaced the prototype of the payload (see
`JSObject.assignKey`) -/
def CreateEmitterFunction.call (name : String) (prop : List JSObject) :
    Option (List JSObject × List Effect) :=
  let p := prop.length
  let allocated : Store := prop ++ [[]]
  (Store.assignAll p allocated 0 prop.length).map (fun assigned =>
    let deleted := (assigned.delete p "target").delete p "type"
    (deleted.take prop.length, [Effect.emit name (Value.record (deleted.read p))]))

/-- `EmitError(vue, error)` -/
def EmitError (error : Value) : Effect := Effect.emit "onError" error

/-- `GetEncodedURN(urn)` -/
def GetEncodedURN (urn : String) : Except Value String :=
  if indexOf urn "adsk" != -1 then
    match atob urn with
    | Except.ok decoded => Except.ok ("urn:" ++ decoded)
    | Except.error e => Except.error e
  else if indexOf urn "urn" == -1 then Except.ok ("urn:" ++ urn)
  else Except.ok urn

/-- One turn of the loop of `AddCustomExtensions`, on the names registered so far and the
effects so far -/
def AddCustomExtensions.step (vue : Vue) (autodeskViewing : Viewing) (baseExtension : Value)
    (customExtensions : JSObject) (acc : List String × List Effect) (name : String) :
    List String × List Effect :=
  let ExtensionCtor := customExtensions.get name
  let extended := vue.newExtension ExtensionCtor baseExtension
  let result := autodeskViewing.registerExtension name extended
  let effects := acc.2 ++
    [Effect.newExtension ExtensionCtor baseExtension, Effect.registerExtension name extended]
  if result = Value.boolean true then (acc.1 ++ [name], effects) else (acc.1, effects)

/-- `AddCustomExtensions(autodeskViewing, baseExtension, customExtensions)`: the names whose
registration returned `true`, and the effects of the loop -/
def AddCustomExtensions (vue : Vue) (autodeskViewing : Viewing) (baseExtension : Value)
    (customExtensions : JSObject) : List String × List Effect :=
  customExtensions.keys.foldl
    (AddCustomExtensions.step vue autodeskViewing baseExtension customExtensions) ([], [])

/-! The adapter -/

/-- The fields of a `ViewerService` object.  `Events` is assigned by the constructor (through
`SetEvents`) and is an object from then on.  `Viewer3D` is `none` for `null`, the value the
constructor assigns, and `some ref` for the viewer object of reference `ref`; the only other
assignment in the source stores the result of a `new` expression, which is an object.
`CustomExtensions` is `none` while it is still `undefined` -/
structure ViewerService where
  AutodeskViewing : Viewing
  Extension : Value
  Events : JSObject
  VueInstance : Vue
  Viewer3D : Option Nat
  CustomExtensions : Option JSObject
  ViewerContainer : Value

/-- What a method call leaves behind: the adapter afterwards, the effects in order, and the
value thrown to the caller (`none` when the call returns) -/
structure Outcome where
  self : ViewerService
  effects : List Effect
  thrown : Option Value

/-- The three states of a promise -/
inductive PromiseState where
  | pending
  | fulfilled (value : Value)
  | rejected (reason : Value)
  deriving DecidableEq

namespace PromiseState

/-- `resolve(value)` with a value that is not a thenable: settles a pending promise only -/
def resolve (p : PromiseState) (value : Value) : PromiseState :=
  match p with
  | pending => fulfilled value
  | settled => settled

/-- `reject(reason)`: settles a pending promise only -/
def reject (p : PromiseState) (reason : Value) : PromiseState :=
  match p with
  | pending => rejected reason
  | settled => settled

end PromiseState

namespace ViewerService

/-- `ViewerService.prototype.SetCustomExtensions` -/
def SetCustomExtensions (self : ViewerService) (extensions : JSObject) : Outcome :=
  if extensions.values.any (fun value => value.typeof != "function") then
    { self := self, effects := [],
      thrown := some (Value.error "Error"
        "Extensions should be an object where its values are valid extension functions.") }
  else
    { self := { self with CustomExtensions := some extensions }, effects := [], thrown := none }

/-- `ViewerService.prototype.HasCustomExtensions` -/
def HasCustomExtensions (self : ViewerService) : Bool :=
  match self.CustomExtensions with
  | none => false
  | some customExtensions => decide (customExtensions.keys.length > 0)

/-- `ViewerService.prototype.GetViewer3DConfig`: the config, and the effects of building it -/
def GetViewer3DConfig (self : ViewerService) : Viewer3DConfig × List Effect :=
  match self.CustomExtensions with
  | none => ({ extensions := none }, [])
  | some customExtensions =>
      if self.HasCustomExtensions then
        let registered := AddCustomExtensions self.VueInstance self.AutodeskViewing
          self.Extension customExtensions
        ({ extensions := some registered.1 }, registered.2)
      else ({ extensions := none }, [])

/-- `ViewerService.prototype.SetEvents` -/
def SetEvents (self : ViewerService) (events : List String) : Outcome :=
  { self := { self with
      Events := (events.filter (fun name => endsWith name "-event")).foldl
        (fun acc name => JSObject.set acc name Value.null) [] },
    effects := [], thrown := none }

/-- The constructor `ViewerService(Autodesk, VueInstance)` -/
def new (Autodesk : Viewing) (VueInstance : Vue) : ViewerService :=
  (SetEvents
    { AutodeskViewing := Autodesk, Extension := Autodesk.Extension, Events := [],
      VueInstance := VueInstance, Viewer3D := none, CustomExtensions := none,
      ViewerContainer := Value.undefined }
    VueInstance.listeners).self

/-- `ViewerService.prototype.LoadDocument` -/
def LoadDocument (self : ViewerService) (urn : String) : Outcome :=
  match GetEncodedURN urn with
  | Except.error e => { self := self, effects := [], thrown := some e }
  | Except.ok documentId =>
      let call := Effect.DocumentLoad documentId
        Callback.onDocumentLoadSuccess Callback.onDocumentLoadError
      match self.AutodeskViewing.DocumentLoad documentId with
      | none => { self := self, effects := [call], thrown := none }
      | some error => { self := self, effects := [call, EmitError error], thrown := none }

/-- One turn of the loop of `RegisterEvents`; a turn after a throw does nothing.  Calling
`addEventListener` on a `Viewer3D` that is `null` throws a `TypeError` -/
def RegisterEvents.step (env : Platform) (out : Outcome) (vueEventname : String) : Outcome :=
  match out.thrown with
  | some _ => out
  | none =>
      let viewerEventName := VueToViewer3DEvent env vueEventname
      let eventType := out.self.AutodeskViewing.constant viewerEventName
      if !eventType.isNullish then
        let emitterFunction := CreateEmitterFunction vueEventname
        let self1 := { out.self with
          Events := JSObject.set out.self.Events vueEventname emitterFunction }
        match out.self.Viewer3D with
        | none =>
            { self := self1, effects := out.effects,
              thrown := some (Value.error "TypeError" "") }
        | some viewer =>
            { self := self1,
              effects := out.effects ++
                [Effect.addEventListener (Value.object viewer) eventType emitterFunction],
              thrown := none }
      else
        { out with
          effects := out.effects ++ [Effect.consoleLog
            ("Event '" ++ vueEventname ++ "' doesn't exist on Forge Viewer")] }

/-- `ViewerService.prototype.RegisterEvents` -/
def RegisterEvents (env : Platform) (self : ViewerService) : Outcome :=
  let eventNames := self.Events.keys
  if eventNames.length > 0 then
    eventNames.foldl (RegisterEvents.step env) { self := self, effects := [], thrown := none }
  else { self := self, effects := [], thrown := none }

/-- The `Events` table after a turn of the loop of `RegisterEvents` that does not throw -/
def RegisterEvents.bound (env : Platform) (autodeskViewing : Viewing) (events : JSObject)
    (vueEventname : String) : JSObject :=
  if (autodeskViewing.constant (VueToViewer3DEvent env vueEventname)).isNullish then events
  else JSObject.set events vueEventname (CreateEmitterFunction vueEventname)

/-- The effect of a turn of the loop of `RegisterEvents` when the viewer `viewer` is stored -/
def RegisterEvents.effect (env : Platform) (autodeskViewing : Viewing) (viewer : Nat)
    (vueEventname : String) : Effect :=
  if (autodeskViewing.constant (VueToViewer3DEvent env vueEventname)).isNullish then
    Effect.consoleLog ("Event '" ++ vueEventname ++ "' doesn't exist on Forge Viewer")
  else
    Effect.addEventListener (Value.object viewer)
      (autodeskViewing.constant (VueToViewer3DEvent env vueEventname))
      (CreateEmitterFunction vueEventname)

/-- `ViewerService.prototype.onDocumentLoadSuccess` -/
def onDocumentLoadSuccess (env : Platform) (self : ViewerService) (doc : Document) : Outcome :=
  let geometries := doc.searchGeometry
  if geometries.length = 0 then
    { self := self,
      effects := [EmitError (Value.error "Error" "Document contains no geometries.")],
      thrown := none }
  else
    let svfUrl := doc.getViewablePath (geometries.getD 0 Value.undefined)
    let modelOptions := Value.record [("sharedPropertyDbPath", doc.getPropertyDbPath)]
    match self.Viewer3D with
    | none =>
        let config := self.GetViewer3DConfig
        let viewer := self.AutodeskViewing.GuiViewer3D self.ViewerContainer config.1
        let started := config.2 ++
          [Effect.newGuiViewer3D self.ViewerContainer config.1,
           Effect.start (Value.object viewer) svfUrl modelOptions
             Callback.onModelLoaded Callback.onModelLoadError]
        let registered := RegisterEvents env { self with Viewer3D := some viewer }
        match registered.thrown with
        | some e =>
            { self := registered.self, effects := started ++ registered.effects,
              thrown := some e }
        | none =>
            { self := registered.self,
              effects := started ++ registered.effects ++
                [Effect.emit "onViewerStarted"
                  (match registered.self.Viewer3D with
                   | some v => Value.object v
                   | none => Value.null)],
              thrown := none }
    | some viewer =>
        { self := self,
          effects :=
            [Effect.tearDown (Value.object viewer),
             Effect.load (Value.object viewer) svfUrl modelOptions
               Callback.onModelLoaded Callback.onModelLoadError],
          thrown := none }

/-- `ViewerService.prototype.onDocumentLoadError` -/
def onDocumentLoadError (self : ViewerService) (errorCode : Value) : Outcome :=
  { self := self, effects := [Effect.emit "onDocumentLoadError" errorCode], thrown := none }

/-- `ViewerService.prototype.onModelLoaded` -/
def onModelLoaded (self : ViewerService) (item : Value) : Outcome :=
  { self := self, effects := [Effect.emit "onModelLoaded" item], thrown := none }

/-- `ViewerService.prototype.onModelLoadError` -/
def onModelLoadError (self : ViewerService) (errorCode : Value) : Outcome :=
  { self := self, effects := [Effect.emit "onModelLoadError" errorCode], thrown := none }

/-- `ViewerService.prototype.LaunchViewer`: the outcome of the call, and the state of the
returned promise when the call gives control back -/
def LaunchViewer (env : Platform) (self : ViewerService) (containerId : String)
    (getTokenMethod : Value) : Outcome × PromiseState :=
  let options := Value.record
    [("env", Value.string "AutodeskProduction"), ("getAccessToken", getTokenMethod)]
  let self1 := { self with ViewerContainer := env.getElementById containerId }
  let run := self.AutodeskViewing.Initializer options
  let calls := [Effect.getElementById containerId, Effect.Initializer options]
  let promise :=
    if run.callbackCalls > 0 then PromiseState.pending.resolve (Value.boolean true)
    else PromiseState.pending
  match run.thrown with
  | none => ({ self := self1, effects := calls, thrown := none }, promise)
  | some error =>
      ({ self := self1, effects := calls ++ [EmitError error], thrown := none },
        promise.reject error)

/-- The completion callback `() => resolve(true)` handed to `Initializer`, run on the promise
of `LaunchViewer` after the call has given control back -/
def LaunchViewer.callback (promise : PromiseState) : PromiseState :=
  promise.resolve (Value.boolean true)

end ViewerService

/-! Reading the effect log -/

/-- The document identifier, for a call of `Document.load` -/
def Effect.loaderCall? : Effect → Option String
  | Effect.DocumentLoad documentId _ _ => some documentId
  | _ => none

/-- The name and payload, for a notification -/
def Effect.notification? : Effect → Option (String × Value)
  | Effect.emit name payload => some (name, payload)
  | _ => none

/-- The viewable path, for a call of `start` or `load` on a viewer -/
def Effect.viewablePath? : Effect → Option Value
  | Effect.start _ svfUrl _ _ _ => some svfUrl
  | Effect.load _ svfUrl _ _ _ => some svfUrl
  | _ => none

/-- The container and config, for a construction of a viewer -/
def Effect.construction? : Effect → Option (Value × Viewer3DConfig)
  | Effect.newGuiViewer3D container config => some (container, config)
  | _ => none

/-- The viewer, event type and listener, for a call of `addEventListener` -/
def Effect.listener? : Effect → Option (Value × Value × Value)
  | Effect.addEventListener viewer eventType listener => some (viewer, eventType, listener)
  | _ => none

/-- The options, for a call of `Initializer` -/
def Effect.initializerCall? : Effect → Option Value
  | Effect.Initializer options => some options
  | _ => none

/-- The listeners attached, each with its viewer and event type, in order -/
def listeners (effects : List Effect) : List (Value × Value × Value) :=
  effects.filterMap Effect.listener?

/-- The options handed to `Initializer`, in order -/
def initializerCalls (effects : List Effect) : List Value :=
  effects.filterMap Effect.initializerCall?

/-- The document identifiers handed to `Document.load`, in order -/
def loaderCalls (effects : List Effect) : List String := effects.filterMap Effect.loaderCall?

/-- The notifications emitted, in order -/
def notifications (effects : List Effect) : List (String × Value) :=
  effects.filterMap Effect.notification?

/-- The viewable paths handed to the viewer through `start` or `load`, in order -/
def viewablePaths (effects : List Effect) : List Value :=
  effects.filterMap Effect.viewablePath?

/-- The viewers constructed, each by its container and config, in order -/
def constructions (effects : List Effect) : List (Value × Viewer3DConfig) :=
  effects.filterMap Effect.construction?

/-- Calls on the viewer SDK: the constructor and the methods of a viewer -/
def Effect.isViewerCall : Effect → Bool
  | Effect.newGuiViewer3D _ _ => true
  | Effect.start _ _ _ _ _ => true
  | Effect.tearDown _ => true
  | Effect.load _ _ _ _ _ => true
  | Effect.addEventListener _ _ _ => true
  | _ => false

/-- Effects of the loop of `RegisterEvents`: a listener attached to `viewer`, or a console
line -/
def Effect.isRegistration (viewer : Value) : Effect → Bool
  | Effect.addEventListener v _ _ => decide (v = viewer)
  | Effect.consoleLog _ => true
  | _ => false

/-- Effects of the loop of `AddCustomExtensions` -/
def Effect.isExtensionCall : Effect → Bool
  | Effect.newExtension _ _ => true
  | Effect.registerExtension _ _ => true
  | _ => false

/-- Whether a string occurs in another as a run of consecutive characters -/
def containsSubstring (s searchString : String) : Prop := searchString.data <:+: s.data

instance (s searchString : String) : Decidable (containsSubstring s searchString) :=
  inferInstanceAs (Decidable (searchString.data <:+: s.data))

/-! A concrete world, for evaluating the adapter -/

namespace Sample

/-- An SDK that knows one event constant, never throws and registers every extension -/
def viewing : Viewing :=
  { constant := fun key =>
      if key = "SELECTION_CHANGED_EVENT" then Value.string "selection" else Value.undefined,
    Extension := Value.function 0,
    DocumentLoad := fun _ => none,
    GuiViewer3D := fun _ _ => 7,
    registerExtension := fun _ _ => Value.boolean true,
    Initializer := fun _ => { callbackCalls := 0, thrown := none } }

/-- A host component listening to two viewer events and one other event -/
def vue : Vue :=
  { listeners := ["selection-changed-event", "click", "camera-change-event"],
    newExtension := fun _ _ => Value.object 1 }

/-- A platform whose page holds every container asked for -/
def platform : Platform :=
  { unicodeUpper := fun c => [c],
    getElementById := fun _ => Value.object 2 }

/-- The adapter after construction, `SetCustomExtensions` with one extension function, and
`LaunchViewer` -/
def service : ViewerService :=
  (ViewerService.LaunchViewer platform
    ((ViewerService.new viewing vue).SetCustomExtensions [("Toolbar", Value.function 3)]).self
    "fv-container" (Value.function 5)).1.self

/-- The adapter after a first successful load: the viewer of reference 7 is stored -/
def started : ViewerService := { service with Viewer3D := some 7 }

/-- A document without geometry -/
def emptyDocument : Document :=
  { searchGeometry := [],
    getViewablePath := fun _ => Value.undefined,
    getPropertyDbPath := Value.string "db" }

/-- A document with two geometry entries, each with its own viewable path -/
def document : Document :=
  { searchGeometry := [Value.object 10, Value.object 11],
    getViewablePath := fun geometry =>
      if geometry = Value.object 10 then Value.string "first.svf"
      else Value.string "other.svf",
    getPropertyDbPath := Value.string "db" }

end Sample

/-! Strings: what `indexOf` and `endsWith` decide -/

theorem indexOfFrom_eq_neg_one_iff (searchString : List Char) :
    ∀ (s : List Char) (position : Nat),
      indexOfFrom searchString s position = -1 ↔ ¬ searchString <:+: s
  | [], position => by
      by_cases h : searchString = []
      · subst h
        simp only [indexOfFrom, if_true, List.infix_rfl, not_true_eq_false, iff_false]
        omega
      · simp [indexOfFrom, h]
  | c :: rest, position => by
      by_cases h : searchString.isPrefixOf (c :: rest) = true
      · have hp : searchString <+: c :: rest := List.isPrefixOf_iff_prefix.mp h
        simp only [indexOfFrom, h, if_true]
        constructor
        · intro h1; omega
        · intro h1; exact absurd hp.isInfix h1
      · have hp : ¬ searchString <+: c :: rest := fun hp => h (List.isPrefixOf_iff_prefix.mpr hp)
        simp only [indexOfFrom, h, Bool.false_eq_true, if_false]
        rw [indexOfFrom_eq_neg_one_iff searchString rest, List.infix_cons_iff]
        tauto

theorem indexOf_eq_neg_one_iff (s searchString : String) :
    indexOf s searchString = -1 ↔ ¬ containsSubstring s searchString :=
  indexOfFrom_eq_neg_one_iff searchString.data s.data 0

theorem endsWith_iff (s searchString : String) :
    endsWith s searchString = true ↔ searchString.data <:+ s.data := by
  unfold endsWith
  exact List.isSuffixOf_iff_suffix

/-! `GetEncodedURN` and `LoadDocument` -/

theorem GetEncodedURN_adsk (urn : String) (h : containsSubstring urn "adsk") :
    GetEncodedURN urn =
      match atob urn with
      | Except.ok decoded => Except.ok ("urn:" ++ decoded)
      | Except.error e => Except.error e := by
  have h1 : indexOf urn "adsk" ≠ -1 := fun e => (indexOf_eq_neg_one_iff urn "adsk").mp e h
  simp [GetEncodedURN, h1]

theorem GetEncodedURN_urn (urn : String) (hadsk : ¬ containsSubstring urn "adsk")
    (hurn : containsSubstring urn "urn") : GetEncodedURN urn = Except.ok urn := by
  have h1 : indexOf urn "adsk" = -1 := (indexOf_eq_neg_one_iff urn "adsk").mpr hadsk
  have h2 : indexOf urn "urn" ≠ -1 := fun e => (indexOf_eq_neg_one_iff urn "urn").mp e hurn
  simp [GetEncodedURN, h1, h2]

theorem GetEncodedURN_plain (urn : String) (hadsk : ¬ containsSubstring urn "adsk")
    (hurn : ¬ containsSubstring urn "urn") : GetEncodedURN urn = Except.ok ("urn:" ++ urn) := by
  have h1 : indexOf urn "adsk" = -1 := (indexOf_eq_neg_one_iff urn "adsk").mpr hadsk
  have h2 : indexOf urn "urn" = -1 := (indexOf_eq_neg_one_iff urn "urn").mpr hurn
  simp [GetEncodedURN, h1, h2]

theorem LoadDocument_of_encoded (self : ViewerService) (urn documentId : String)
    (h : GetEncodedURN urn = Except.ok documentId) :
    loaderCalls (self.LoadDocument urn).effects = [documentId] ∧
      (self.LoadDocument urn).thrown = none ∧ (self.LoadDocument urn).self = self ∧
      notifications (self.LoadDocument urn).effects =
        match self.AutodeskViewing.DocumentLoad documentId with
        | none => []
        | some error => [("onError", error)] := by
  unfold ViewerService.LoadDocument
  rw [h]
  cases h2 : self.AutodeskViewing.DocumentLoad documentId <;>
    simp [h2, loaderCalls, notifications, EmitError, Effect.loaderCall?, Effect.notification?]

/-- Where `atob` decodes an identifier that contains `adsk`, `LoadDocument` hands the document
loader exactly one identifier, `urn:` followed by the decoding of the whole identifier, and
returns. -/
theorem LoadDocument_adsk_decodable (self : ViewerService) (urn decoded : String)
    (hadsk : containsSubstring urn "adsk") (hdecoded : atob urn = Except.ok decoded) :
    loaderCalls (self.LoadDocument urn).effects = ["urn:" ++ decoded] ∧
      (self.LoadDocument urn).thrown = none := by
  have h : GetEncodedURN urn = Except.ok ("urn:" ++ decoded) := by
    rw [GetEncodedURN_adsk urn hadsk, hdecoded]
  exact ⟨(LoadDocument_of_encoded self urn _ h).1, (LoadDocument_of_encoded self urn _ h).2.1⟩

/-- An instance of `LoadDocument_adsk_decodable`: the identifier `adskZmlsZQ==` contains
`adsk`, and `atob` decodes it to the bytes 105, 219, 36 followed by `file`. -/
theorem LoadDocument_adsk_decodable_witness :
    containsSubstring "adskZmlsZQ==" "adsk" ∧
      atob "adskZmlsZQ=="
        = Except.ok (String.mk [Char.ofNat 105, Char.ofNat 219, Char.ofNat 36] ++ "file") ∧
      loaderCalls (Sample.service.LoadDocument "adskZmlsZQ==").effects
        = ["urn:" ++ (String.mk [Char.ofNat 105, Char.ofNat 219, Char.ofNat 36] ++ "file")] ∧
      (Sample.service.LoadDocument "adskZmlsZQ==").thrown = none :=
  ⟨by decide, rfl,
    LoadDocument_adsk_decodable Sample.service "adskZmlsZQ=="
      (String.mk [Char.ofNat 105, Char.ofNat 219, Char.ofNat 36] ++ "file") (by decide) rfl⟩

/-- C1, the code at the failing input: the object id
`urn:adsk.objects:os.object:bucket/house.rvt`, as the API returns it, contains `adsk`; `atob`
rejects it, so there is no decoding to hand over, and the document loader is not called at
all. -/
theorem LoadDocument_adsk_undecodable :
    containsSubstring "urn:adsk.objects:os.object:bucket/house.rvt" "adsk" ∧
      atob "urn:adsk.objects:os.object:bucket/house.rvt" = Except.error InvalidCharacterError ∧
      loaderCalls
        (Sample.service.LoadDocument "urn:adsk.objects:os.object:bucket/house.rvt").effects
        = [] :=
  ⟨by decide, rfl, rfl⟩

/-- C2 (as amended): for every identifier that contains `urn` and does not contain `adsk`,
`LoadDocument` hands the document loader exactly the identifier, unmodified. -/
theorem LoadDocument_urn_unmodified (self : ViewerService) (urn : String)
    (hurn : containsSubstring urn "urn") (hadsk : ¬ containsSubstring urn "adsk") :
    loaderCalls (self.LoadDocument urn).effects = [urn] ∧
      (self.LoadDocument urn).thrown = none :=
  ⟨(LoadDocument_of_encoded self urn urn (GetEncodedURN_urn urn hadsk hurn)).1,
    (LoadDocument_of_encoded self urn urn (GetEncodedURN_urn urn hadsk hurn)).2.1⟩

/-- Witness of C2 (as amended): `urn:dXJuOmFkc2s` contains `urn` and not `adsk`. -/
theorem LoadDocument_urn_unmodified_witness :
    containsSubstring "urn:dXJuOmFkc2s" "urn" ∧ ¬ containsSubstring "urn:dXJuOmFkc2s" "adsk" ∧
      loaderCalls (Sample.service.LoadDocument "urn:dXJuOmFkc2s").effects
        = ["urn:dXJuOmFkc2s"] ∧
      (Sample.service.LoadDocument "urn:dXJuOmFkc2s").thrown = none :=
  ⟨by decide, by decide,
    LoadDocument_urn_unmodified Sample.service "urn:dXJuOmFkc2s" (by decide) (by decide)⟩

/-- Counterexample to C2 as stated: `urnadsk0` contains `urn`, and also `adsk`; the loader
receives `urn:` followed by the six bytes `atob` decodes the identifier to, not the
identifier. -/
theorem LoadDocument_urn_with_adsk :
    containsSubstring "urnadsk0" "urn" ∧
      loaderCalls (Sample.service.LoadDocument "urnadsk0").effects ≠ ["urnadsk0"] ∧
      loaderCalls (Sample.service.LoadDocument "urnadsk0").effects =
        ["urn:" ++ String.mk [Char.ofNat 186, Char.ofNat 185, Char.ofNat 218, Char.ofNat 118,
          Char.ofNat 201, Char.ofNat 52]] :=
  ⟨by decide, by decide, by decide⟩

/-- C3: for every identifier that contains neither `adsk` nor `urn`, `LoadDocument` hands the
document loader exactly `urn:` followed by the identifier unchanged. -/
theorem LoadDocument_plain_prefixed (self : ViewerService) (urn : String)
    (hadsk : ¬ containsSubstring urn "adsk") (hurn : ¬ containsSubstring urn "urn") :
    loaderCalls (self.LoadDocument urn).effects = ["urn:" ++ urn] ∧
      (self.LoadDocument urn).thrown = none :=
  ⟨(LoadDocument_of_encoded self urn _ (GetEncodedURN_plain urn hadsk hurn)).1,
    (LoadDocument_of_encoded self urn _ (GetEncodedURN_plain urn hadsk hurn)).2.1⟩

/-- Witness of C3: the base64 identifier `dXJuOmFkc2s` contains neither marker. -/
theorem LoadDocument_plain_prefixed_witness :
    ¬ containsSubstring "dXJuOmFkc2s" "adsk" ∧ ¬ containsSubstring "dXJuOmFkc2s" "urn" ∧
      loaderCalls (Sample.service.LoadDocument "dXJuOmFkc2s").effects = ["urn:dXJuOmFkc2s"] ∧
      (Sample.service.LoadDocument "dXJuOmFkc2s").thrown = none :=
  ⟨by decide, by decide,
    LoadDocument_plain_prefixed Sample.service "dXJuOmFkc2s" (by decide) (by decide)⟩

/-- C4, the code at the failing input: on the object id
`urn:adsk.objects:os.object:bucket/house.rvt` the exception of `atob` leaves `LoadDocument`
uncaught, whatever the adapter and the SDK are; nothing is emitted and the loader is not
called. -/
theorem LoadDocument_throws_on_object_id (self : ViewerService) :
    (self.LoadDocument "urn:adsk.objects:os.object:bucket/house.rvt").thrown
        = some InvalidCharacterError ∧
      (self.LoadDocument "urn:adsk.objects:os.object:bucket/house.rvt").effects = [] := by
  have h : GetEncodedURN "urn:adsk.objects:os.object:bucket/house.rvt"
      = Except.error InvalidCharacterError := rfl
  unfold ViewerService.LoadDocument
  rw [h]
  exact ⟨rfl, rfl⟩

/-! `SetCustomExtensions` -/

/-- C5: `SetCustomExtensions` either fails or stores the map, and it fails exactly when some
value of the map is not a function; when it fails it throws its error and the adapter, its
`CustomExtensions` included, is as before the call. -/
theorem SetCustomExtensions_fails_iff_non_function (self : ViewerService)
    (extensions : JSObject) :
    ((∃ value ∈ extensions.values, value.typeof ≠ "function") ∧
        (self.SetCustomExtensions extensions).thrown = some (Value.error "Error"
          "Extensions should be an object where its values are valid extension functions.") ∧
        (self.SetCustomExtensions extensions).self = self ∧
        (self.SetCustomExtensions extensions).effects = []) ∨
      ((∀ value ∈ extensions.values, value.typeof = "function") ∧
        (self.SetCustomExtensions extensions).thrown = none ∧
        (self.SetCustomExtensions extensions).self
          = { self with CustomExtensions := some extensions }) := by
  by_cases h : extensions.values.any (fun value => value.typeof != "function") = true
  · left
    refine ⟨?_, ?_, ?_, ?_⟩
    · obtain ⟨value, hmem, hvalue⟩ := List.any_eq_true.mp h
      exact ⟨value, hmem, by simpa using hvalue⟩
    all_goals simp [ViewerService.SetCustomExtensions, h]
  · right
    refine ⟨?_, ?_, ?_⟩
    · intro value hmem
      by_contra hvalue
      exact h (List.any_eq_true.mpr ⟨value, hmem, by simpa using hvalue⟩)
    all_goals simp [ViewerService.SetCustomExtensions, h]

/-! `SetEvents` -/

theorem JSObject.keys_set (o : JSObject) (key : String) (value : Value) :
    (JSObject.set o key value).keys = if key ∈ o.keys then o.keys else o.keys ++ [key] := by
  induction o with
  | nil => simp [JSObject.set, JSObject.keys]
  | cons entry rest ih =>
    obtain ⟨k, v⟩ := entry
    by_cases hk : k = key
    · simp [JSObject.set, JSObject.keys, hk]
    · have hk2 : ¬ key = k := fun e => hk e.symm
      simp only [JSObject.keys] at ih
      by_cases hmem : key ∈ List.map Prod.fst rest
      · simp [JSObject.set, JSObject.keys, hk, hk2, hmem, ih]
      · simp [JSObject.set, JSObject.keys, hk, hk2, hmem, ih]

theorem JSObject.mem_set (o : JSObject) (key : String) (value : Value) (entry : String × Value)
    (h : entry ∈ JSObject.set o key value) : entry ∈ o ∨ entry = (key, value) := by
  induction o with
  | nil => simpa [JSObject.set] using h
  | cons head rest ih =>
    obtain ⟨k, v⟩ := head
    by_cases hk : k = key
    · simp only [JSObject.set, hk, if_true, List.mem_cons] at h
      rcases h with h | h
      · exact Or.inr h
      · exact Or.inl (List.mem_cons_of_mem _ h)
    · simp only [JSObject.set, hk, if_false, List.mem_cons] at h
      rcases h with h | h
      · exact Or.inl (h ▸ List.mem_cons_self _ _)
      · rcases ih h with h2 | h2
        · exact Or.inl (List.mem_cons_of_mem _ h2)
        · exact Or.inr h2

/-- The table built by the `reduce` of `SetEvents` from an accumulator `acc` -/
theorem SetEvents_fold (names : List String) :
    ∀ acc : JSObject,
      (∀ name, name ∈ JSObject.keys
          (names.foldl (fun acc name => JSObject.set acc name Value.null) acc)
        ↔ name ∈ acc.keys ∨ name ∈ names) ∧
      (acc.keys.Nodup → (JSObject.keys
          (names.foldl (fun acc name => JSObject.set acc name Value.null) acc)).Nodup) ∧
      ((∀ entry ∈ acc, entry.2 = Value.null) →
        ∀ entry ∈ names.foldl (fun acc name => JSObject.set acc name Value.null) acc,
          entry.2 = Value.null) := by
  induction names with
  | nil => intro acc; simp
  | cons head rest ih =>
    intro acc
    obtain ⟨h1, h2, h3⟩ := ih (JSObject.set acc head Value.null)
    simp only [List.foldl_cons]
    refine ⟨?_, ?_, ?_⟩
    · intro name
      rw [h1 name, JSObject.keys_set]
      by_cases hmem : head ∈ acc.keys
      · simp only [hmem, if_true, List.mem_cons]
        constructor
        · rintro (h | h)
          · exact Or.inl h
          · exact Or.inr (Or.inr h)
        · rintro (h | h | h)
          · exact Or.inl h
          · exact Or.inl (h ▸ hmem)
          · exact Or.inr h
      · simp only [hmem, if_false, List.mem_append, List.mem_singleton, List.mem_cons]
        tauto
    · intro hnodup
      apply h2
      rw [JSObject.keys_set]
      by_cases hmem : head ∈ acc.keys
      · simpa [hmem] using hnodup
      · simp only [hmem, if_false]
        exact List.Nodup.append hnodup (List.nodup_singleton head)
          (by
            intro a ha hb
            rw [List.mem_singleton] at hb
            exact hmem (hb ▸ ha))
    · intro hnull
      apply h3
      intro entry hentry
      rcases JSObject.mem_set acc head Value.null entry hentry with h | h
      · exact hnull entry h
      · rw [h]

/-- C6: after `SetEvents(names)` the keys of the `Events` table are exactly the names of the
list that end with `-event`, no key occurs twice, every key is bound to `null`, and the call
does not throw; on `rotate-event, click, pan-event` the table has exactly the keys
`rotate-event` and `pan-event`. -/
theorem SetEvents_keeps_event_names (self : ViewerService) (events : List String) :
    (∀ name, name ∈ (self.SetEvents events).self.Events.keys
        ↔ name ∈ events ∧ "-event".data <:+ name.data) ∧
      (self.SetEvents events).self.Events.keys.Nodup ∧
      (∀ entry ∈ (self.SetEvents events).self.Events, entry.2 = Value.null) ∧
      (self.SetEvents events).thrown = none ∧
      (self.SetEvents ["rotate-event", "click", "pan-event"]).self.Events
        = [("rotate-event", Value.null), ("pan-event", Value.null)] := by
  obtain ⟨h1, h2, h3⟩ :=
    SetEvents_fold (events.filter (fun name => endsWith name "-event")) []
  refine ⟨?_, ?_, ?_, rfl, rfl⟩
  · intro name
    simp only [ViewerService.SetEvents]
    rw [h1 name]
    simp [JSObject.keys, List.mem_filter, endsWith_iff]
  · exact h2 (by simp [JSObject.keys])
  · exact h3 (by simp)

/-! `GetViewer3DConfig` and `RegisterEvents`: what they add to the log -/

theorem foldl_invariant {α β : Type} (P : β → Prop) (f : β → α → β)
    (hstep : ∀ b a, P b → P (f b a)) : ∀ (l : List α) (b : β), P b → P (l.foldl f b)
  | [], _, hb => hb
  | a :: rest, b, hb => foldl_invariant P f hstep rest (f b a) (hstep b a hb)

theorem AddCustomExtensions_effects (vue : Vue) (autodeskViewing : Viewing)
    (baseExtension : Value) (customExtensions : JSObject) :
    ∀ e ∈ (AddCustomExtensions vue autodeskViewing baseExtension customExtensions).2,
      e.isExtensionCall = true := by
  unfold AddCustomExtensions
  apply foldl_invariant (fun acc : List String × List Effect =>
    ∀ e ∈ acc.2, e.isExtensionCall = true)
  · intro acc name hacc e he
    have hmem : e ∈ acc.2 ++
        [Effect.newExtension (customExtensions.get name) baseExtension,
         Effect.registerExtension name
           (vue.newExtension (customExtensions.get name) baseExtension)] := by
      by_cases hr : autodeskViewing.registerExtension name
          (vue.newExtension (customExtensions.get name) baseExtension) = Value.boolean true
      · simpa [AddCustomExtensions.step, hr] using he
      · simpa [AddCustomExtensions.step, hr] using he
    rcases List.mem_append.mp hmem with h | h
    · exact hacc e h
    · simp only [List.mem_cons, List.mem_singleton, List.not_mem_nil, or_false] at h
      rcases h with h | h <;> rw [h] <;> rfl
  · intro e he
    simp at he

theorem GetViewer3DConfig_effects (self : ViewerService) :
    ∀ e ∈ self.GetViewer3DConfig.2, e.isExtensionCall = true := by
  unfold ViewerService.GetViewer3DConfig
  cases self.CustomExtensions with
  | none => intro e he; simp at he
  | some customExtensions =>
    by_cases h : self.HasCustomExtensions = true
    · simp only [h, if_true]
      exact AddCustomExtensions_effects _ _ _ _
    · simp only [h]
      intro e he
      simp at he

theorem RegisterEvents_step_sound (env : Platform) (self : ViewerService) (viewer : Nat)
    (hviewer : self.Viewer3D = some viewer) (out : Outcome) (name : String)
    (h : out.thrown = none ∧ (∃ events, out.self = { self with Events := events }) ∧
      ∀ e ∈ out.effects, e.isRegistration (Value.object viewer) = true) :
    (ViewerService.RegisterEvents.step env out name).thrown = none ∧
      (∃ events, (ViewerService.RegisterEvents.step env out name).self
        = { self with Events := events }) ∧
      ∀ e ∈ (ViewerService.RegisterEvents.step env out name).effects,
        e.isRegistration (Value.object viewer) = true := by
  obtain ⟨hthrown, ⟨events, hself⟩, heffects⟩ := h
  have hv : out.self.Viewer3D = some viewer := by rw [hself]; exact hviewer
  by_cases hc : (out.self.AutodeskViewing.constant (VueToViewer3DEvent env name)).isNullish
      = true
  · have hstep : ViewerService.RegisterEvents.step env out name =
        { out with effects := out.effects ++ [Effect.consoleLog
            ("Event '" ++ name ++ "' doesn't exist on Forge Viewer")] } := by
      simp [ViewerService.RegisterEvents.step, hthrown, hc]
    rw [hstep]
    refine ⟨hthrown, ⟨events, hself⟩, ?_⟩
    intro e he
    rcases List.mem_append.mp he with h | h
    · exact heffects e h
    · rw [List.mem_singleton] at h
      rw [h]
      rfl
  · have hstep : ViewerService.RegisterEvents.step env out name =
        { self := { out.self with
            Events := JSObject.set out.self.Events name (CreateEmitterFunction name) },
          effects := out.effects ++
            [Effect.addEventListener (Value.object viewer)
              (out.self.AutodeskViewing.constant (VueToViewer3DEvent env name))
              (CreateEmitterFunction name)],
          thrown := none } := by
      simp [ViewerService.RegisterEvents.step, hthrown, hc, hv]
    rw [hstep]
    refine ⟨rfl, ⟨JSObject.set out.self.Events name (CreateEmitterFunction name), ?_⟩, ?_⟩
    · rw [hself]
    · intro e he
      rcases List.mem_append.mp he with h | h
      · exact heffects e h
      · rw [List.mem_singleton] at h
        rw [h]
        simp [Effect.isRegistration]

theorem RegisterEvents_sound (env : Platform) (self : ViewerService) (viewer : Nat)
    (hviewer : self.Viewer3D = some viewer) :
    (ViewerService.RegisterEvents env self).thrown = none ∧
      (∃ events, (ViewerService.RegisterEvents env self).self = { self with Events := events }) ∧
      ∀ e ∈ (ViewerService.RegisterEvents env self).effects,
        e.isRegistration (Value.object viewer) = true := by
  have hstart : (({ self := self, effects := [], thrown := none } : Outcome).thrown = none ∧
      (∃ events, ({ self := self, effects := [], thrown := none } : Outcome).self
        = { self with Events := events }) ∧
      ∀ e ∈ ({ self := self, effects := [], thrown := none } : Outcome).effects,
        e.isRegistration (Value.object viewer) = true) :=
    ⟨rfl, ⟨self.Events, rfl⟩, by intro e he; simp at he⟩
  unfold ViewerService.RegisterEvents
  by_cases hlen : self.Events.keys.length > 0
  · rw [if_pos hlen]
    exact foldl_invariant
      (fun out : Outcome => out.thrown = none ∧
        (∃ events, out.self = { self with Events := events }) ∧
        ∀ e ∈ out.effects, e.isRegistration (Value.object viewer) = true)
      (ViewerService.RegisterEvents.step env)
      (fun out name h => RegisterEvents_step_sound env self viewer hviewer out name h)
      self.Events.keys _ hstart
  · rw [if_neg hlen]
    exact hstart

theorem filterMap_eq_nil_of_forall {α β : Type} (f : α → Option β) (l : List α)
    (h : ∀ a ∈ l, f a = none) : l.filterMap f = [] := by
  induction l with
  | nil => rfl
  | cons a rest ih =>
    rw [List.filterMap_cons, h a (List.mem_cons_self _ _)]
    exact ih (fun b hb => h b (List.mem_cons_of_mem _ hb))

theorem isExtensionCall_silent (e : Effect) (h : e.isExtensionCall = true) :
    e.notification? = none ∧ e.viewablePath? = none ∧ e.construction? = none := by
  cases e <;> simp_all [Effect.isExtensionCall, Effect.notification?, Effect.viewablePath?,
    Effect.construction?]

theorem isRegistration_silent (viewer : Value) (e : Effect)
    (h : e.isRegistration viewer = true) :
    e.notification? = none ∧ e.viewablePath? = none ∧ e.construction? = none := by
  cases e <;> simp_all [Effect.isRegistration, Effect.notification?, Effect.viewablePath?,
    Effect.construction?]

/-! `onDocumentLoadSuccess` -/

theorem onDocumentLoadSuccess_empty (env : Platform) (self : ViewerService) (doc : Document)
    (hgeo : doc.searchGeometry = []) :
    self.onDocumentLoadSuccess env doc =
      { self := self,
        effects := [Effect.emit "onError" (Value.error "Error" "Document contains no geometries.")],
        thrown := none } := by
  simp [ViewerService.onDocumentLoadSuccess, hgeo, EmitError]

theorem onDocumentLoadSuccess_create (env : Platform) (self : ViewerService) (doc : Document)
    (geometry : Value) (rest : List Value) (viewer : Nat) (hnull : self.Viewer3D = none)
    (hgeo : doc.searchGeometry = geometry :: rest)
    (hviewer : viewer
      = self.AutodeskViewing.GuiViewer3D self.ViewerContainer self.GetViewer3DConfig.1) :
    self.onDocumentLoadSuccess env doc =
      { self := (ViewerService.RegisterEvents env { self with Viewer3D := some viewer }).self,
        effects := self.GetViewer3DConfig.2 ++
          [Effect.newGuiViewer3D self.ViewerContainer self.GetViewer3DConfig.1,
           Effect.start (Value.object viewer) (doc.getViewablePath geometry)
             (Value.record [("sharedPropertyDbPath", doc.getPropertyDbPath)])
             Callback.onModelLoaded Callback.onModelLoadError] ++
          (ViewerService.RegisterEvents env { self with Viewer3D := some viewer }).effects ++
          [Effect.emit "onViewerStarted" (Value.object viewer)],
        thrown := none } := by
  obtain ⟨hthrown, ⟨events, hself⟩, -⟩ :=
    RegisterEvents_sound env { self with Viewer3D := some viewer } viewer rfl
  have hv : (ViewerService.RegisterEvents env
      { self with Viewer3D := some viewer }).self.Viewer3D = some viewer := by
    rw [hself]
  subst hviewer
  simp only [ViewerService.onDocumentLoadSuccess, hgeo, hnull, List.length_cons,
    Nat.add_one_ne_zero, if_false, List.getD_cons_zero, hthrown, hv]

theorem onDocumentLoadSuccess_reuse (env : Platform) (self : ViewerService) (doc : Document)
    (viewer : Nat) (geometry : Value) (rest : List Value) (hviewer : self.Viewer3D = some viewer)
    (hgeo : doc.searchGeometry = geometry :: rest) :
    self.onDocumentLoadSuccess env doc =
      { self := self,
        effects :=
          [Effect.tearDown (Value.object viewer),
           Effect.load (Value.object viewer) (doc.getViewablePath geometry)
             (Value.record [("sharedPropertyDbPath", doc.getPropertyDbPath)])
             Callback.onModelLoaded Callback.onModelLoadError],
        thrown := none } := by
  simp only [ViewerService.onDocumentLoadSuccess, hgeo, hviewer, List.length_cons,
    Nat.add_one_ne_zero, if_false, List.getD_cons_zero]

theorem SetCustomExtensions_Viewer3D (self : ViewerService) (extensions : JSObject) :
    (self.SetCustomExtensions extensions).self.Viewer3D = self.Viewer3D := by
  unfold ViewerService.SetCustomExtensions
  split <;> rfl

/-- C7: when the geometry search of the loaded document returns an empty list,
`onDocumentLoadSuccess` emits exactly one notification, an `onError`, and does nothing else:
no call on the viewer SDK, the adapter (its `Viewer3D` and `Events` included) unchanged, a
normal return. -/
theorem onDocumentLoadSuccess_no_geometry (env : Platform) (self : ViewerService)
    (doc : Document) (hgeo : doc.searchGeometry = []) :
    (self.onDocumentLoadSuccess env doc).effects
        = [Effect.emit "onError" (Value.error "Error" "Document contains no geometries.")] ∧
      notifications (self.onDocumentLoadSuccess env doc).effects
        = [("onError", Value.error "Error" "Document contains no geometries.")] ∧
      (∀ e ∈ (self.onDocumentLoadSuccess env doc).effects, e.isViewerCall = false) ∧
      (self.onDocumentLoadSuccess env doc).self = self ∧
      (self.onDocumentLoadSuccess env doc).thrown = none := by
  rw [onDocumentLoadSuccess_empty env self doc hgeo]
  refine ⟨rfl, rfl, ?_, rfl, rfl⟩
  intro e he
  rw [List.mem_singleton] at he
  rw [he]
  rfl

/-- Witness of C7: an adapter that holds a viewer receives a document without geometry. -/
theorem onDocumentLoadSuccess_no_geometry_witness :
    Sample.emptyDocument.searchGeometry = [] ∧
      (Sample.started.onDocumentLoadSuccess Sample.platform Sample.emptyDocument).effects
        = [Effect.emit "onError" (Value.error "Error" "Document contains no geometries.")] ∧
      (Sample.started.onDocumentLoadSuccess Sample.platform Sample.emptyDocument).self
        = Sample.started :=
  ⟨rfl,
    (onDocumentLoadSuccess_no_geometry Sample.platform Sample.started Sample.emptyDocument
      rfl).1,
    (onDocumentLoadSuccess_no_geometry Sample.platform Sample.started Sample.emptyDocument
      rfl).2.2.2.1⟩

/-- C8: with `Viewer3D` null and a document with at least one geometry entry, the log of
`onDocumentLoadSuccess` is, in this order: the effects of `GetViewer3DConfig`, one construction
of a viewer on the container with that config, one `start` on that viewer with the path derived
from the first entry, the effects of `RegisterEvents` run on the adapter that stores the viewer,
and one `onViewerStarted` carrying the viewer.  The viewer is stored as `Viewer3D`, the adapter
is the one `RegisterEvents` leaves, nothing is thrown; there is exactly one construction, one
`start` and one notification in the whole log. -/
theorem onDocumentLoadSuccess_first_load (env : Platform) (self : ViewerService)
    (doc : Document) (geometry : Value) (rest : List Value) (viewer : Nat)
    (hnull : self.Viewer3D = none) (hgeo : doc.searchGeometry = geometry :: rest)
    (hviewer : viewer
      = self.AutodeskViewing.GuiViewer3D self.ViewerContainer self.GetViewer3DConfig.1) :
    (self.onDocumentLoadSuccess env doc).effects =
        self.GetViewer3DConfig.2 ++
          [Effect.newGuiViewer3D self.ViewerContainer self.GetViewer3DConfig.1,
           Effect.start (Value.object viewer) (doc.getViewablePath geometry)
             (Value.record [("sharedPropertyDbPath", doc.getPropertyDbPath)])
             Callback.onModelLoaded Callback.onModelLoadError] ++
          (ViewerService.RegisterEvents env { self with Viewer3D := some viewer }).effects ++
          [Effect.emit "onViewerStarted" (Value.object viewer)] ∧
      (self.onDocumentLoadSuccess env doc).self
        = (ViewerService.RegisterEvents env { self with Viewer3D := some viewer }).self ∧
      (self.onDocumentLoadSuccess env doc).self.Viewer3D = some viewer ∧
      (self.onDocumentLoadSuccess env doc).thrown = none ∧
      constructions (self.onDocumentLoadSuccess env doc).effects
        = [(self.ViewerContainer, self.GetViewer3DConfig.1)] ∧
      viewablePaths (self.onDocumentLoadSuccess env doc).effects
        = [doc.getViewablePath geometry] ∧
      notifications (self.onDocumentLoadSuccess env doc).effects
        = [("onViewerStarted", Value.object viewer)] := by
  obtain ⟨-, ⟨events, hself⟩, hreg⟩ :=
    RegisterEvents_sound env { self with Viewer3D := some viewer } viewer rfl
  have hext := GetViewer3DConfig_effects self
  rw [onDocumentLoadSuccess_create env self doc geometry rest viewer hnull hgeo hviewer]
  refine ⟨rfl, rfl, ?_, rfl, ?_, ?_, ?_⟩
  · show (ViewerService.RegisterEvents env
      { self with Viewer3D := some viewer }).self.Viewer3D = some viewer
    rw [hself]
  · show constructions (_ ++ _ ++ _ ++ _) = _
    unfold constructions
    rw [List.filterMap_append, List.filterMap_append, List.filterMap_append,
      filterMap_eq_nil_of_forall _ _ (fun e he => (isExtensionCall_silent e (hext e he)).2.2),
      filterMap_eq_nil_of_forall _ _ (fun e he => (isRegistration_silent _ e (hreg e he)).2.2)]
    rfl
  · show viewablePaths (_ ++ _ ++ _ ++ _) = _
    unfold viewablePaths
    rw [List.filterMap_append, List.filterMap_append, List.filterMap_append,
      filterMap_eq_nil_of_forall _ _ (fun e he => (isExtensionCall_silent e (hext e he)).2.1),
      filterMap_eq_nil_of_forall _ _ (fun e he => (isRegistration_silent _ e (hreg e he)).2.1)]
    rfl
  · show notifications (_ ++ _ ++ _ ++ _) = _
    unfold notifications
    rw [List.filterMap_append, List.filterMap_append, List.filterMap_append,
      filterMap_eq_nil_of_forall _ _ (fun e he => (isExtensionCall_silent e (hext e he)).1),
      filterMap_eq_nil_of_forall _ _ (fun e he => (isRegistration_silent _ e (hreg e he)).1)]
    rfl

/-- Witness of C8: the sample adapter, with one extension and two declared viewer events,
receives its first document. -/
theorem onDocumentLoadSuccess_first_load_witness :
    Sample.service.Viewer3D = none ∧
      Sample.document.searchGeometry = [Value.object 10, Value.object 11] ∧
      (Sample.service.onDocumentLoadSuccess Sample.platform Sample.document).effects =
        [Effect.newExtension (Value.function 3) (Value.function 0),
         Effect.registerExtension "Toolbar" (Value.object 1),
         Effect.newGuiViewer3D (Value.object 2) { extensions := some ["Toolbar"] },
         Effect.start (Value.object 7) (Value.string "first.svf")
           (Value.record [("sharedPropertyDbPath", Value.string "db")])
           Callback.onModelLoaded Callback.onModelLoadError,
         Effect.addEventListener (Value.object 7) (Value.string "selection")
           (Value.emitterFunction "selection-changed-event"),
         Effect.consoleLog "Event 'camera-change-event' doesn't exist on Forge Viewer",
         Effect.emit "onViewerStarted" (Value.object 7)] ∧
      (Sample.service.onDocumentLoadSuccess Sample.platform Sample.document).self.Viewer3D
        = some 7 :=
  ⟨rfl, rfl,
    (onDocumentLoadSuccess_first_load Sample.platform Sample.service Sample.document
      (Value.object 10) [Value.object 11] 7 rfl rfl rfl).1.trans (by decide),
    (onDocumentLoadSuccess_first_load Sample.platform Sample.service Sample.document
      (Value.object 10) [Value.object 11] 7 rfl rfl rfl).2.2.1⟩

/-- C9: with a viewer already stored and a document with at least one geometry entry, the
log of `onDocumentLoadSuccess` is exactly `tearDown` and then `load`, both on the stored viewer;
the adapter is unchanged (same `Viewer3D`, same `Events`), nothing is thrown, no viewer is
constructed, nothing is emitted, and a `SetCustomExtensions` made before this load changes
nothing of the log. -/
theorem onDocumentLoadSuccess_reload (env : Platform) (self : ViewerService) (doc : Document)
    (viewer : Nat) (geometry : Value) (rest : List Value)
    (hviewer : self.Viewer3D = some viewer) (hgeo : doc.searchGeometry = geometry :: rest) :
    (self.onDocumentLoadSuccess env doc).effects =
        [Effect.tearDown (Value.object viewer),
         Effect.load (Value.object viewer) (doc.getViewablePath geometry)
           (Value.record [("sharedPropertyDbPath", doc.getPropertyDbPath)])
           Callback.onModelLoaded Callback.onModelLoadError] ∧
      (self.onDocumentLoadSuccess env doc).self = self ∧
      (self.onDocumentLoadSuccess env doc).thrown = none ∧
      constructions (self.onDocumentLoadSuccess env doc).effects = [] ∧
      notifications (self.onDocumentLoadSuccess env doc).effects = [] ∧
      (∀ e ∈ (self.onDocumentLoadSuccess env doc).effects,
        e.isExtensionCall = false ∧ e.isRegistration (Value.object viewer) = false) ∧
      ∀ extensions : JSObject,
        ((self.SetCustomExtensions extensions).self.onDocumentLoadSuccess env doc).effects
          = (self.onDocumentLoadSuccess env doc).effects := by
  rw [onDocumentLoadSuccess_reuse env self doc viewer geometry rest hviewer hgeo]
  refine ⟨rfl, rfl, rfl, rfl, rfl, ?_, ?_⟩
  · intro e he
    simp only [List.mem_cons, List.mem_singleton, List.not_mem_nil, or_false] at he
    rcases he with he | he <;> rw [he] <;> exact ⟨rfl, rfl⟩
  · intro extensions
    rw [onDocumentLoadSuccess_reuse env (self.SetCustomExtensions extensions).self doc viewer
      geometry rest ((SetCustomExtensions_Viewer3D self extensions).trans hviewer) hgeo]

/-- Witness of C9: the sample adapter holds the viewer of reference 7 and receives a
document. -/
theorem onDocumentLoadSuccess_reload_witness :
    Sample.started.Viewer3D = some 7 ∧
      Sample.document.searchGeometry = [Value.object 10, Value.object 11] ∧
      (Sample.started.onDocumentLoadSuccess Sample.platform Sample.document).effects =
        [Effect.tearDown (Value.object 7),
         Effect.load (Value.object 7) (Value.string "first.svf")
           (Value.record [("sharedPropertyDbPath", Value.string "db")])
           Callback.onModelLoaded Callback.onModelLoadError] ∧
      (Sample.started.onDocumentLoadSuccess Sample.platform Sample.document).self
        = Sample.started :=
  ⟨rfl, rfl,
    (onDocumentLoadSuccess_reload Sample.platform Sample.started Sample.document 7
      (Value.object 10) [Value.object 11] rfl rfl).1,
    (onDocumentLoadSuccess_reload Sample.platform Sample.started Sample.document 7
      (Value.object 10) [Value.object 11] rfl rfl).2.1⟩

/-- C10: when the geometry search returns a list with first entry `geometry`, the one viewable
path `onDocumentLoadSuccess` hands to the viewer (through `start` or `load`) is the path of
`geometry`, and the whole outcome is the same whatever entries follow the first. -/
theorem onDocumentLoadSuccess_first_geometry (env : Platform) (self : ViewerService)
    (doc : Document) (geometry : Value) (rest : List Value)
    (hgeo : doc.searchGeometry = geometry :: rest) :
    viewablePaths (self.onDocumentLoadSuccess env doc).effects
        = [doc.getViewablePath geometry] ∧
      ∀ others : List Value,
        self.onDocumentLoadSuccess env { doc with searchGeometry := geometry :: others }
          = self.onDocumentLoadSuccess env doc := by
  cases hv : self.Viewer3D with
  | none =>
    obtain ⟨-, -, hreg⟩ := RegisterEvents_sound env
      { self with Viewer3D := some (self.AutodeskViewing.GuiViewer3D self.ViewerContainer
          self.GetViewer3DConfig.1) } _ rfl
    have hext := GetViewer3DConfig_effects self
    constructor
    · rw [onDocumentLoadSuccess_create env self doc geometry rest _ hv hgeo rfl]
      show viewablePaths (_ ++ _ ++ _ ++ _) = _
      unfold viewablePaths
      rw [List.filterMap_append, List.filterMap_append, List.filterMap_append,
        filterMap_eq_nil_of_forall _ _ (fun e he => (isExtensionCall_silent e (hext e he)).2.1),
        filterMap_eq_nil_of_forall _ _
          (fun e he => (isRegistration_silent _ e (hreg e he)).2.1)]
      rfl
    · intro others
      rw [onDocumentLoadSuccess_create env self doc geometry rest _ hv hgeo rfl,
        onDocumentLoadSuccess_create env self { doc with searchGeometry := geometry :: others }
          geometry others _ hv rfl rfl]
  | some viewer =>
    constructor
    · rw [onDocumentLoadSuccess_reuse env self doc viewer geometry rest hv hgeo]
      rfl
    · intro others
      rw [onDocumentLoadSuccess_reuse env self doc viewer geometry rest hv hgeo,
        onDocumentLoadSuccess_reuse env self { doc with searchGeometry := geometry :: others }
          viewer geometry others hv rfl]

/-- Witness of C10: of the two geometry entries of the sample document, with paths `first.svf`
and `other.svf`, the viewer is started on `first.svf`. -/
theorem onDocumentLoadSuccess_first_geometry_witness :
    Sample.document.searchGeometry = [Value.object 10, Value.object 11] ∧
      Sample.document.getViewablePath (Value.object 11) = Value.string "other.svf" ∧
      viewablePaths (Sample.service.onDocumentLoadSuccess Sample.platform Sample.document).effects
        = [Value.string "first.svf"] :=
  ⟨rfl, rfl,
    (onDocumentLoadSuccess_first_geometry Sample.platform Sample.service Sample.document
      (Value.object 10) [Value.object 11] rfl).1⟩

/-! Plain objects: reading after writing -/

theorem JSObject.get_set (o : JSObject) (key : String) (value : Value) (other : String) :
    (JSObject.set o key value).get other = if key = other then value else o.get other := by
  induction o with
  | nil => simp [JSObject.set, JSObject.get]
  | cons entry rest ih =>
    obtain ⟨k, v⟩ := entry
    by_cases hk : k = key
    · subst hk
      by_cases ho : k = other <;> simp [JSObject.set, JSObject.get, ho]
    · by_cases ho : k = other
      · subst ho
        have hk2 : ¬ key = k := fun e => hk e.symm
        simp [JSObject.set, JSObject.get, hk, hk2]
      · simp [JSObject.set, JSObject.get, hk, ho, ih]

theorem JSObject.delete_cons (k : String) (v : Value) (rest : JSObject) (key : String) :
    JSObject.delete ((k, v) :: rest) key
      = if k = key then JSObject.delete rest key else (k, v) :: JSObject.delete rest key := by
  by_cases hk : k = key <;> simp [JSObject.delete, List.filter_cons, hk]

theorem JSObject.keys_delete (o : JSObject) (key : String) :
    (JSObject.delete o key).keys = o.keys.filter (fun k => k ≠ key) := by
  induction o with
  | nil => rfl
  | cons entry rest ih =>
    obtain ⟨k, v⟩ := entry
    rw [JSObject.delete_cons]
    by_cases hk : k = key
    · rw [if_pos hk, ih]
      simp [JSObject.keys, List.filter_cons, hk]
    · rw [if_neg hk]
      have h2 : JSObject.keys ((k, v) :: JSObject.delete rest key)
          = k :: JSObject.keys (JSObject.delete rest key) := rfl
      rw [h2, ih]
      simp [JSObject.keys, List.filter_cons, hk]

theorem JSObject.get_delete (o : JSObject) (key other : String) :
    (JSObject.delete o key).get other = if other = key then Value.undefined else o.get other := by
  induction o with
  | nil => simp [JSObject.delete, JSObject.get]
  | cons entry rest ih =>
    obtain ⟨k, v⟩ := entry
    rw [JSObject.delete_cons]
    by_cases hk : k = key
    · rw [if_pos hk, ih]
      by_cases ho : other = key
      · simp [ho]
      · have ho2 : ¬ k = other := fun e => ho (e ▸ hk)
        simp [JSObject.get, ho, ho2]
    · rw [if_neg hk]
      by_cases ho : k = other
      · have ho2 : ¬ other = key := fun e => hk (ho.trans e)
        simp [JSObject.get, ho, ho2]
      · simp only [JSObject.get, ho, if_false]
        exact ih

theorem JSObject.delete_set_ne (o : JSObject) (key other : String) (value : Value)
    (h : key ≠ other) :
    JSObject.delete (JSObject.set o key value) other
      = JSObject.set (JSObject.delete o other) key value := by
  induction o with
  | nil =>
    show JSObject.delete [(key, value)] other = [(key, value)]
    rw [JSObject.delete_cons, if_neg h]
    rfl
  | cons entry rest ih =>
    obtain ⟨k, v⟩ := entry
    by_cases hk : k = key
    · have hko : ¬ k = other := fun e => h (hk ▸ e)
      rw [JSObject.delete_cons k v rest other, if_neg hko]
      simp only [JSObject.set, hk, if_true]
      rw [JSObject.delete_cons, if_neg h]
    · simp only [JSObject.set, hk, if_false]
      rw [JSObject.delete_cons, JSObject.delete_cons, ih]
      by_cases ho : k = other
      · simp only [ho, if_true]
      · simp only [ho, if_false, JSObject.set, hk]

/-! `RegisterEvents`: what the loop computes -/

theorem RegisterEvents_eq_foldl (env : Platform) (self : ViewerService) :
    ViewerService.RegisterEvents env self =
      self.Events.keys.foldl (ViewerService.RegisterEvents.step env)
        { self := self, effects := [], thrown := none } := by
  unfold ViewerService.RegisterEvents
  by_cases hlen : self.Events.keys.length > 0
  · rw [if_pos hlen]
  · rw [if_neg hlen]
    have hnil : self.Events.keys = [] := List.length_eq_zero.mp (by omega)
    rw [hnil]
    rfl

theorem RegisterEvents_step_viewer (env : Platform) (self : ViewerService) (viewer : Nat)
    (hviewer : self.Viewer3D = some viewer) (events : JSObject) (effects : List Effect)
    (name : String) :
    ViewerService.RegisterEvents.step env
        { self := { self with Events := events }, effects := effects, thrown := none } name =
      { self := { self with
          Events := ViewerService.RegisterEvents.bound env self.AutodeskViewing events name },
        effects := effects ++
          [ViewerService.RegisterEvents.effect env self.AutodeskViewing viewer name],
        thrown := none } := by
  by_cases hc : (self.AutodeskViewing.constant (VueToViewer3DEvent env name)).isNullish = true
  · simp [ViewerService.RegisterEvents.step, ViewerService.RegisterEvents.bound,
      ViewerService.RegisterEvents.effect, hc]
  · simp [ViewerService.RegisterEvents.step, ViewerService.RegisterEvents.bound,
      ViewerService.RegisterEvents.effect, hc, hviewer]

theorem RegisterEvents_foldl_viewer (env : Platform) (self : ViewerService) (viewer : Nat)
    (hviewer : self.Viewer3D = some viewer) :
    ∀ (names : List String) (events : JSObject) (effects : List Effect),
      names.foldl (ViewerService.RegisterEvents.step env)
          { self := { self with Events := events }, effects := effects, thrown := none } =
        { self := { self with Events := (names.foldl
            (ViewerService.RegisterEvents.bound env self.AutodeskViewing) events) },
          effects := effects ++
            names.map (ViewerService.RegisterEvents.effect env self.AutodeskViewing viewer),
          thrown := none }
  | [], events, effects => by simp
  | name :: rest, events, effects => by
      rw [List.foldl_cons, RegisterEvents_step_viewer env self viewer hviewer,
        RegisterEvents_foldl_viewer env self viewer hviewer rest]
      simp

theorem RegisterEvents_viewer (env : Platform) (self : ViewerService) (viewer : Nat)
    (hviewer : self.Viewer3D = some viewer) :
    ViewerService.RegisterEvents env self =
      { self := { self with Events := (self.Events.keys.foldl
          (ViewerService.RegisterEvents.bound env self.AutodeskViewing) self.Events) },
        effects := self.Events.keys.map
          (ViewerService.RegisterEvents.effect env self.AutodeskViewing viewer),
        thrown := none } := by
  rw [RegisterEvents_eq_foldl]
  exact RegisterEvents_foldl_viewer env self viewer hviewer self.Events.keys self.Events []

theorem listeners_map_effect (env : Platform) (autodeskViewing : Viewing) (viewer : Nat) :
    ∀ names : List String,
      listeners (names.map (ViewerService.RegisterEvents.effect env autodeskViewing viewer)) =
        (names.filter (fun name =>
            !(autodeskViewing.constant (VueToViewer3DEvent env name)).isNullish)).map
          (fun name => (Value.object viewer,
            autodeskViewing.constant (VueToViewer3DEvent env name),
            CreateEmitterFunction name))
  | [] => rfl
  | name :: rest => by
      have ih := listeners_map_effect env autodeskViewing viewer rest
      unfold listeners at ih ⊢
      by_cases hc : (autodeskViewing.constant (VueToViewer3DEvent env name)).isNullish = true
      · simp [List.filter_cons, hc, ViewerService.RegisterEvents.effect, Effect.listener?, ih]
      · simp [List.filter_cons, hc, ViewerService.RegisterEvents.effect, Effect.listener?, ih]

theorem get_foldl_bound (env : Platform) (autodeskViewing : Viewing) (name : String) :
    ∀ (names : List String) (events : JSObject),
      (names.foldl (ViewerService.RegisterEvents.bound env autodeskViewing) events).get name =
        if name ∈ names ∧
            (autodeskViewing.constant (VueToViewer3DEvent env name)).isNullish = false
        then CreateEmitterFunction name else events.get name
  | [], events => by simp
  | head :: rest, events => by
      rw [List.foldl_cons, get_foldl_bound env autodeskViewing name rest]
      by_cases hc : (autodeskViewing.constant (VueToViewer3DEvent env name)).isNullish = true
      · have hget : (ViewerService.RegisterEvents.bound env autodeskViewing events head).get name
            = events.get name := by
          unfold ViewerService.RegisterEvents.bound
          split
          · rfl
          · rename_i hhead
            have hne : ¬ head = name := fun e => hhead (e ▸ hc)
            rw [JSObject.get_set, if_neg hne]
        simp [hc, hget]
      · have hc2 : (autodeskViewing.constant (VueToViewer3DEvent env name)).isNullish = false := by
          simpa using hc
        by_cases hmem : name ∈ rest
        · simp [hmem, hc2]
        · by_cases hhead : head = name
          · subst hhead
            simp [hmem, hc2, ViewerService.RegisterEvents.bound, JSObject.get_set]
          · have hhead2 : ¬ name = head := fun e => hhead e.symm
            have hget : (ViewerService.RegisterEvents.bound env autodeskViewing events
                head).get name = events.get name := by
              unfold ViewerService.RegisterEvents.bound
              split
              · rfl
              · rw [JSObject.get_set, if_neg hhead]
            simp [hmem, hc2, hhead2, hget]

theorem keys_foldl_bound (env : Platform) (autodeskViewing : Viewing) :
    ∀ (names : List String) (events : JSObject), (∀ name ∈ names, name ∈ events.keys) →
      (names.foldl (ViewerService.RegisterEvents.bound env autodeskViewing) events).keys
        = events.keys
  | [], _, _ => rfl
  | head :: rest, events, h => by
      have hkeys : (ViewerService.RegisterEvents.bound env autodeskViewing events head).keys
          = events.keys := by
        unfold ViewerService.RegisterEvents.bound
        split
        · rfl
        · rw [JSObject.keys_set, if_pos (h head (List.mem_cons_self _ _))]
      rw [List.foldl_cons, keys_foldl_bound env autodeskViewing rest _
        (fun name hname => hkeys ▸ h name (List.mem_cons_of_mem _ hname)), hkeys]

/-! `VueToViewer3DEvent` -/

theorem constantChar_ascii :
    ∀ n : Nat, n < 128 →
      (if (if 97 ≤ (Char.ofNat n).toNat ∧ (Char.ofNat n).toNat ≤ 122
            then Char.ofNat ((Char.ofNat n).toNat - 32) else Char.ofNat n) = Char.ofNat 45
        then Char.ofNat 95
        else (if 97 ≤ (Char.ofNat n).toNat ∧ (Char.ofNat n).toNat ≤ 122
            then Char.ofNat ((Char.ofNat n).toNat - 32) else Char.ofNat n))
        = constantChar (Char.ofNat n) := by
  decide

theorem upperChar_ascii (unicodeUpper : Char → List Char) (n : Nat) (hn : n < 128) :
    (upperChar unicodeUpper (Char.ofNat n)).map
        (fun c => if c = Char.ofNat 45 then Char.ofNat 95 else c)
      = [constantChar (Char.ofNat n)] := by
  have hall : ∀ m : Nat, m < 128 → (Char.ofNat m).toNat < 128 := by decide
  have hlt : (Char.ofNat n).toNat < 128 := hall n hn
  unfold upperChar
  rw [if_pos hlt, List.map_singleton, constantChar_ascii n hn]

theorem VueToViewer3DEvent_ascii_data (unicodeUpper : Char → List Char) :
    ∀ l : List Char, (∀ c ∈ l, c.toNat < 128) →
      (l.flatMap (upperChar unicodeUpper)).map
          (fun c => if c = Char.ofNat 45 then Char.ofNat 95 else c)
        = l.map constantChar
  | [], _ => rfl
  | c :: rest, h => by
      have hc := upperChar_ascii unicodeUpper c.toNat (h c (List.mem_cons_self _ _))
      rw [Char.ofNat_toNat] at hc
      rw [List.flatMap_cons, List.map_append, hc,
        VueToViewer3DEvent_ascii_data unicodeUpper rest
          (fun d hd => h d (List.mem_cons_of_mem _ hd))]
      rfl

theorem VueToViewer3DEvent_no_hyphen (env : Platform) (name : String) :
    Char.ofNat 45 ∉ (VueToViewer3DEvent env name).data := by
  unfold VueToViewer3DEvent
  intro hmem
  obtain ⟨c, -, hc⟩ := List.mem_map.mp hmem
  by_cases h : c = Char.ofNat 45
  · rw [if_pos h] at hc
    exact absurd hc (by decide)
  · rw [if_neg h] at hc
    exact h hc

theorem VueToViewer3DEvent_ascii (env : Platform) (name : String)
    (h : ∀ c ∈ name.data, c.toNat < 128) :
    VueToViewer3DEvent env name = String.mk (name.data.map constantChar) := by
  unfold VueToViewer3DEvent toUpperCase
  rw [VueToViewer3DEvent_ascii_data env.unicodeUpper name.data h]

/-- C12: with a viewer stored, `RegisterEvents` returns and, for the declared names in order,
looks up the constant under `VueToViewer3DEvent` of the name: the listeners it attaches are,
one per declared name whose constant is neither `null` nor `undefined`, the emitter function
of that name on the stored viewer for that constant; that same function is the binding of the
name afterwards, the binding of any other declared name is as before, and the table has the
same keys.  The key of the constant has no hyphen; for an ASCII name it is the name with each
small letter turned into its capital and each hyphen into an underscore, so
`selection-changed-event` gives `SELECTION_CHANGED_EVENT`. -/
theorem RegisterEvents_binds_known (env : Platform) (self : ViewerService) (viewer : Nat)
    (hviewer : self.Viewer3D = some viewer) :
    listeners (ViewerService.RegisterEvents env self).effects =
        (self.Events.keys.filter (fun name =>
            !(self.AutodeskViewing.constant (VueToViewer3DEvent env name)).isNullish)).map
          (fun name => (Value.object viewer,
            self.AutodeskViewing.constant (VueToViewer3DEvent env name),
            CreateEmitterFunction name)) ∧
      (∀ name ∈ self.Events.keys,
        (ViewerService.RegisterEvents env self).self.Events.get name =
          if (self.AutodeskViewing.constant (VueToViewer3DEvent env name)).isNullish = false
          then CreateEmitterFunction name else self.Events.get name) ∧
      (ViewerService.RegisterEvents env self).self.Events.keys = self.Events.keys ∧
      (ViewerService.RegisterEvents env self).thrown = none ∧
      (∀ name : String, Char.ofNat 45 ∉ (VueToViewer3DEvent env name).data) ∧
      (∀ name : String, (∀ c ∈ name.data, c.toNat < 128) →
        VueToViewer3DEvent env name = String.mk (name.data.map constantChar)) ∧
      VueToViewer3DEvent env "selection-changed-event" = "SELECTION_CHANGED_EVENT" := by
  rw [RegisterEvents_viewer env self viewer hviewer]
  refine ⟨listeners_map_effect env self.AutodeskViewing viewer self.Events.keys, ?_,
    keys_foldl_bound env self.AutodeskViewing self.Events.keys self.Events (fun _ h => h), rfl,
    VueToViewer3DEvent_no_hyphen env, VueToViewer3DEvent_ascii env, ?_⟩
  · intro name hname
    show (self.Events.keys.foldl (ViewerService.RegisterEvents.bound env self.AutodeskViewing)
      self.Events).get name = _
    rw [get_foldl_bound env self.AutodeskViewing name self.Events.keys self.Events]
    simp [hname]
  · exact (VueToViewer3DEvent_ascii env "selection-changed-event" (by decide)).trans
      (by decide)

/-- Witness of C12: the sample adapter with its viewer stored declares
`selection-changed-event`, whose constant the sample SDK has, and `camera-change-event`, whose
constant it lacks. -/
theorem RegisterEvents_binds_known_witness :
    Sample.started.Viewer3D = some 7 ∧
      listeners (ViewerService.RegisterEvents Sample.platform Sample.started).effects =
        [(Value.object 7, Value.string "selection",
          Value.emitterFunction "selection-changed-event")] ∧
      (ViewerService.RegisterEvents Sample.platform Sample.started).self.Events =
        [("selection-changed-event", Value.emitterFunction "selection-changed-event"),
         ("camera-change-event", Value.null)] :=
  ⟨rfl,
    (RegisterEvents_binds_known Sample.platform Sample.started 7 rfl).1.trans (by decide),
    by decide⟩

/-! `RegisterEvents` and a declared name without constant -/

theorem listeners_append_singleton (effects : List Effect) (e : Effect) :
    listeners (effects ++ [e]) =
      listeners effects ++ (match e.listener? with | some l => [l] | none => []) := by
  unfold listeners
  rw [List.filterMap_append]
  cases h : e.listener? <;> simp [List.filterMap_cons, h]

theorem RegisterEvents_step_missing (env : Platform) (out : Outcome) (name : String)
    (hmissing :
      (out.self.AutodeskViewing.constant (VueToViewer3DEvent env name)).isNullish = true) :
    (ViewerService.RegisterEvents.step env out name).thrown = out.thrown ∧
      (ViewerService.RegisterEvents.step env out name).self = out.self ∧
      listeners (ViewerService.RegisterEvents.step env out name).effects
        = listeners out.effects := by
  cases hthrown : out.thrown with
  | some e =>
    have hstep : ViewerService.RegisterEvents.step env out name = out := by
      simp [ViewerService.RegisterEvents.step, hthrown]
    rw [hstep]
    exact ⟨hthrown, rfl, rfl⟩
  | none =>
    have hstep : ViewerService.RegisterEvents.step env out name =
        { out with effects := out.effects ++ [Effect.consoleLog
            ("Event '" ++ name ++ "' doesn't exist on Forge Viewer")] } := by
      simp [ViewerService.RegisterEvents.step, hthrown, hmissing]
    rw [hstep]
    refine ⟨hthrown, rfl, ?_⟩
    show listeners (out.effects ++ [_]) = _
    rw [listeners_append_singleton]
    simp [Effect.listener?]

theorem RegisterEvents_step_frame (env : Platform) (autodeskViewing : Viewing)
    (events : JSObject) (name : String)
    (hmissing : (autodeskViewing.constant (VueToViewer3DEvent env name)).isNullish = true)
    (out : Outcome) (other : String)
    (h : out.self.AutodeskViewing = autodeskViewing ∧
      out.self.Events.get name = events.get name ∧
      ∀ l ∈ listeners out.effects, l.2.2 ≠ CreateEmitterFunction name) :
    (ViewerService.RegisterEvents.step env out other).self.AutodeskViewing = autodeskViewing ∧
      (ViewerService.RegisterEvents.step env out other).self.Events.get name
        = events.get name ∧
      ∀ l ∈ listeners (ViewerService.RegisterEvents.step env out other).effects,
        l.2.2 ≠ CreateEmitterFunction name := by
  obtain ⟨hsdk, hget, hlisteners⟩ := h
  by_cases hc :
      (out.self.AutodeskViewing.constant (VueToViewer3DEvent env other)).isNullish = true
  · obtain ⟨-, hself, heffects⟩ := RegisterEvents_step_missing env out other hc
    rw [hself, heffects]
    exact ⟨hsdk, hget, hlisteners⟩
  · have hne : ¬ other = name := by
      intro e
      rw [e, hsdk] at hc
      exact hc hmissing
    unfold ViewerService.RegisterEvents.step
    cases hthrown : out.thrown with
    | some e => exact ⟨hsdk, hget, hlisteners⟩
    | none =>
      simp only [hc, Bool.not_false, if_true]
      cases hviewer : out.self.Viewer3D with
      | none =>
        refine ⟨hsdk, ?_, hlisteners⟩
        show (JSObject.set out.self.Events other (CreateEmitterFunction other)).get name = _
        rw [JSObject.get_set, if_neg hne, hget]
      | some viewer =>
        refine ⟨hsdk, ?_, ?_⟩
        · show (JSObject.set out.self.Events other (CreateEmitterFunction other)).get name = _
          rw [JSObject.get_set, if_neg hne, hget]
        · intro l hl
          rw [listeners_append_singleton] at hl
          rcases List.mem_append.mp hl with h1 | h1
          · exact hlisteners l h1
          · simp only [Effect.listener?, List.mem_singleton] at h1
            rw [h1]
            intro e
            exact hne (Value.emitterFunction.inj e)

theorem RegisterEvents_step_related (env : Platform) (autodeskViewing : Viewing)
    (name other : String) (hother : other ≠ name) (out out2 : Outcome)
    (h : out2.thrown = out.thrown ∧ out.self.AutodeskViewing = autodeskViewing ∧
      out2.self = { out.self with Events := JSObject.delete out.self.Events name } ∧
      listeners out2.effects = listeners out.effects) :
    (ViewerService.RegisterEvents.step env out2 other).thrown
        = (ViewerService.RegisterEvents.step env out other).thrown ∧
      (ViewerService.RegisterEvents.step env out other).self.AutodeskViewing
        = autodeskViewing ∧
      (ViewerService.RegisterEvents.step env out2 other).self =
        { (ViewerService.RegisterEvents.step env out other).self with
          Events := JSObject.delete
            (ViewerService.RegisterEvents.step env out other).self.Events name } ∧
      listeners (ViewerService.RegisterEvents.step env out2 other).effects
        = listeners (ViewerService.RegisterEvents.step env out other).effects := by
  obtain ⟨hthrown2, hsdk, hself, hlisteners⟩ := h
  have hsdk2 : out2.self.AutodeskViewing = out.self.AutodeskViewing := by rw [hself]
  have hviewer2 : out2.self.Viewer3D = out.self.Viewer3D := by rw [hself]
  have hevents2 : out2.self.Events = JSObject.delete out.self.Events name := by rw [hself]
  cases hthrown : out.thrown with
  | some e =>
    rw [hthrown] at hthrown2
    have hstep : ViewerService.RegisterEvents.step env out other = out := by
      simp [ViewerService.RegisterEvents.step, hthrown]
    have hstep2 : ViewerService.RegisterEvents.step env out2 other = out2 := by
      simp [ViewerService.RegisterEvents.step, hthrown2]
    rw [hstep, hstep2]
    exact ⟨hthrown2.trans hthrown.symm, hsdk, hself, hlisteners⟩
  | none =>
    rw [hthrown] at hthrown2
    by_cases hc :
        (out.self.AutodeskViewing.constant (VueToViewer3DEvent env other)).isNullish = true
    · have hc2 : (out2.self.AutodeskViewing.constant
          (VueToViewer3DEvent env other)).isNullish = true := by rw [hsdk2]; exact hc
      obtain ⟨h1, h2, h3⟩ := RegisterEvents_step_missing env out other hc
      obtain ⟨k1, k2, k3⟩ := RegisterEvents_step_missing env out2 other hc2
      rw [h1, h2, h3, k1, k2, k3]
      exact ⟨hthrown2.trans hthrown.symm, hsdk, hself, hlisteners⟩
    · have hc2 : ¬ (out2.self.AutodeskViewing.constant
          (VueToViewer3DEvent env other)).isNullish = true := by rw [hsdk2]; exact hc
      cases hviewer : out.self.Viewer3D with
      | none =>
        rw [hviewer] at hviewer2
        have hstep : ViewerService.RegisterEvents.step env out other =
            { self := { out.self with
                Events := JSObject.set out.self.Events other (CreateEmitterFunction other) },
              effects := out.effects, thrown := some (Value.error "TypeError" "") } := by
          simp [ViewerService.RegisterEvents.step, hthrown, hc, hviewer]
        have hstep2 : ViewerService.RegisterEvents.step env out2 other =
            { self := { out2.self with
                Events := JSObject.set out2.self.Events other (CreateEmitterFunction other) },
              effects := out2.effects, thrown := some (Value.error "TypeError" "") } := by
          simp [ViewerService.RegisterEvents.step, hthrown2, hc2, hviewer2]
        rw [hstep, hstep2]
        refine ⟨rfl, hsdk, ?_, hlisteners⟩
        rw [hself]
        dsimp only
        rw [JSObject.delete_set_ne _ _ _ _ hother]
      | some viewer =>
        rw [hviewer] at hviewer2
        have hstep : ViewerService.RegisterEvents.step env out other =
            { self := { out.self with
                Events := JSObject.set out.self.Events other (CreateEmitterFunction other) },
              effects := out.effects ++ [Effect.addEventListener (Value.object viewer)
                (out.self.AutodeskViewing.constant (VueToViewer3DEvent env other))
                (CreateEmitterFunction other)],
              thrown := none } := by
          simp [ViewerService.RegisterEvents.step, hthrown, hc, hviewer]
        have hstep2 : ViewerService.RegisterEvents.step env out2 other =
            { self := { out2.self with
                Events := JSObject.set out2.self.Events other (CreateEmitterFunction other) },
              effects := out2.effects ++ [Effect.addEventListener (Value.object viewer)
                (out2.self.AutodeskViewing.constant (VueToViewer3DEvent env other))
                (CreateEmitterFunction other)],
              thrown := none } := by
          simp [ViewerService.RegisterEvents.step, hthrown2, hc2, hviewer2]
        rw [hstep, hstep2]
        refine ⟨rfl, hsdk, ?_, ?_⟩
        · rw [hself]
          dsimp only
          rw [JSObject.delete_set_ne _ _ _ _ hother]
        · show listeners (out2.effects ++ [_]) = listeners (out.effects ++ [_])
          rw [listeners_append_singleton, listeners_append_singleton, hlisteners, hsdk2]

theorem RegisterEvents_foldl_related (env : Platform) (autodeskViewing : Viewing)
    (name : String)
    (hmissing : (autodeskViewing.constant (VueToViewer3DEvent env name)).isNullish = true) :
    ∀ (names : List String) (out out2 : Outcome),
      (out2.thrown = out.thrown ∧ out.self.AutodeskViewing = autodeskViewing ∧
        out2.self = { out.self with Events := JSObject.delete out.self.Events name } ∧
        listeners out2.effects = listeners out.effects) →
      (((names.filter (fun k => k ≠ name)).foldl
            (ViewerService.RegisterEvents.step env) out2).thrown
          = (names.foldl (ViewerService.RegisterEvents.step env) out).thrown ∧
        ((names.filter (fun k => k ≠ name)).foldl
            (ViewerService.RegisterEvents.step env) out2).self.Events
          = JSObject.delete
              (names.foldl (ViewerService.RegisterEvents.step env) out).self.Events name ∧
        listeners ((names.filter (fun k => k ≠ name)).foldl
            (ViewerService.RegisterEvents.step env) out2).effects
          = listeners (names.foldl (ViewerService.RegisterEvents.step env) out).effects)
  | [], out, out2, h => by
      obtain ⟨h1, -, h3, h4⟩ := h
      refine ⟨h1, ?_, h4⟩
      show out2.self.Events = _
      rw [h3]
      rfl
  | head :: rest, out, out2, h => by
      by_cases hhead : head = name
      · have hfilter : (head :: rest).filter (fun k => k ≠ name)
            = rest.filter (fun k => k ≠ name) := by
          simp [List.filter_cons, hhead]
        rw [hfilter, List.foldl_cons]
        obtain ⟨h1, h2, h3, h4⟩ := h
        have hc : (out.self.AutodeskViewing.constant
            (VueToViewer3DEvent env head)).isNullish = true := by
          rw [h2, hhead]; exact hmissing
        obtain ⟨k1, k2, k3⟩ := RegisterEvents_step_missing env out head hc
        exact RegisterEvents_foldl_related env autodeskViewing name hmissing rest _ out2
          ⟨h1.trans k1.symm, by rw [k2]; exact h2, by rw [k2]; exact h3, by rw [k3]; exact h4⟩
      · have hfilter : (head :: rest).filter (fun k => k ≠ name)
            = head :: rest.filter (fun k => k ≠ name) := by
          simp [List.filter_cons, hhead]
        rw [hfilter, List.foldl_cons, List.foldl_cons]
        exact RegisterEvents_foldl_related env autodeskViewing name hmissing rest _ _
          (RegisterEvents_step_related env autodeskViewing name head hhead out out2 h)

/-- C11: let the constant derived from a declared name be missing from the SDK namespace
(`null` or `undefined`).  The turn of the loop of `RegisterEvents` on that name throws nothing,
leaves the adapter as it is and attaches no listener; with a viewer stored `RegisterEvents`
does not throw at all.  After `RegisterEvents` the binding of the name is what it was (`null`
when it was `null`), no listener attached is the emitter function of the name, and the other
names fare as if the name were not in the table: run on the table without the name,
`RegisterEvents` throws or returns alike, leaves the same table but for the name, and attaches
the same listeners. -/
theorem RegisterEvents_skips_missing (env : Platform) (self : ViewerService) (name : String)
    (hmissing :
      (self.AutodeskViewing.constant (VueToViewer3DEvent env name)).isNullish = true) :
    (∀ out : Outcome, out.self.AutodeskViewing = self.AutodeskViewing →
        (ViewerService.RegisterEvents.step env out name).thrown = out.thrown ∧
        (ViewerService.RegisterEvents.step env out name).self = out.self ∧
        listeners (ViewerService.RegisterEvents.step env out name).effects
          = listeners out.effects) ∧
      (∀ viewer, self.Viewer3D = some viewer →
        (ViewerService.RegisterEvents env self).thrown = none) ∧
      (ViewerService.RegisterEvents env self).self.Events.get name = self.Events.get name ∧
      (∀ l ∈ listeners (ViewerService.RegisterEvents env self).effects,
        l.2.2 ≠ CreateEmitterFunction name) ∧
      (ViewerService.RegisterEvents env
          { self with Events := JSObject.delete self.Events name }).thrown
        = (ViewerService.RegisterEvents env self).thrown ∧
      (ViewerService.RegisterEvents env
          { self with Events := JSObject.delete self.Events name }).self.Events
        = JSObject.delete (ViewerService.RegisterEvents env self).self.Events name ∧
      listeners (ViewerService.RegisterEvents env
          { self with Events := JSObject.delete self.Events name }).effects
        = listeners (ViewerService.RegisterEvents env self).effects := by
  have hframe := foldl_invariant
    (fun out : Outcome => out.self.AutodeskViewing = self.AutodeskViewing ∧
      out.self.Events.get name = self.Events.get name ∧
      ∀ l ∈ listeners out.effects, l.2.2 ≠ CreateEmitterFunction name)
    (ViewerService.RegisterEvents.step env)
    (fun out other h =>
      RegisterEvents_step_frame env self.AutodeskViewing self.Events name hmissing out other h)
    self.Events.keys { self := self, effects := [], thrown := none }
    ⟨rfl, rfl, by intro l hl; simp [listeners] at hl⟩
  have hrelated := RegisterEvents_foldl_related env self.AutodeskViewing name hmissing
    self.Events.keys { self := self, effects := [], thrown := none }
    { self := { self with Events := JSObject.delete self.Events name }, effects := [],
      thrown := none }
    ⟨rfl, rfl, rfl, rfl⟩
  have hkeys : ({ self with Events := JSObject.delete self.Events name } :
      ViewerService).Events.keys = self.Events.keys.filter (fun k => k ≠ name) :=
    JSObject.keys_delete self.Events name
  rw [RegisterEvents_eq_foldl env self,
    RegisterEvents_eq_foldl env { self with Events := JSObject.delete self.Events name }, hkeys]
  refine ⟨?_, ?_, hframe.2.1, hframe.2.2, hrelated.1, hrelated.2.1, hrelated.2.2⟩
  · intro out hsdk
    exact RegisterEvents_step_missing env out name (by rw [hsdk]; exact hmissing)
  · intro viewer hviewer
    rw [← RegisterEvents_eq_foldl env self]
    exact (RegisterEvents_sound env self viewer hviewer).1

/-- Witness of C11: the sample SDK has no constant `CAMERA_CHANGE_EVENT`; the binding of
`camera-change-event` stays `null` and the only listener attached is the one of
`selection-changed-event`. -/
theorem RegisterEvents_skips_missing_witness :
    (Sample.started.AutodeskViewing.constant
        (VueToViewer3DEvent Sample.platform "camera-change-event")).isNullish = true ∧
      Sample.started.Events.get "camera-change-event" = Value.null ∧
      (ViewerService.RegisterEvents Sample.platform Sample.started).self.Events.get
          "camera-change-event" = Value.null ∧
      listeners (ViewerService.RegisterEvents Sample.platform
          { Sample.started with
            Events := JSObject.delete Sample.started.Events "camera-change-event" }).effects
        = [(Value.object 7, Value.string "selection",
            Value.emitterFunction "selection-changed-event")] :=
  ⟨by decide, by decide,
    (RegisterEvents_skips_missing Sample.platform Sample.started "camera-change-event"
      (by decide)).2.2.1.trans (by decide),
    (RegisterEvents_skips_missing Sample.platform Sample.started "camera-change-event"
      (by decide)).2.2.2.2.2.2.trans (by decide)⟩

/-! The store: writes to the fresh object leave the argument objects alone -/

theorem Store.read_append_length (prop : List JSObject) (fresh : JSObject) :
    Store.read (prop ++ [fresh]) prop.length = fresh := by
  induction prop with
  | nil => rfl
  | cons head rest ih => simp [Store.read]

theorem Store.read_append_lt (prop : List JSObject) (fresh : JSObject) :
    ∀ ref : Nat, ref < prop.length → Store.read (prop ++ [fresh]) ref = Store.read prop ref := by
  induction prop with
  | nil => intro ref h; simp at h
  | cons head rest ih =>
    intro ref h
    cases ref with
    | zero => rfl
    | succ r =>
      have hr : r < rest.length := by simpa using h
      simpa [Store.read] using ih r hr

theorem Store.set_append_length (prop : List JSObject) (fresh other : JSObject) :
    (prop ++ [fresh]).set prop.length other = prop ++ [other] := by
  induction prop with
  | nil => rfl
  | cons head rest ih => simp [ih]

theorem Store.read_middle (done : List JSObject) (head : JSObject) (rest : List JSObject) :
    Store.read (done ++ head :: rest) done.length = head := by
  induction done with
  | nil => rfl
  | cons d ds ih => simpa [Store.read] using ih

theorem foldl_bind_none {α β : Type} (g : β → α → Option β) :
    ∀ l : List α, l.foldl (fun acc x => acc.bind (fun d => g d x)) none = none
  | [] => rfl
  | _ :: rest => foldl_bind_none g rest

theorem Store.assign_fresh (prop : List JSObject) (source : Nat) (hsource : source < prop.length) :
    ∀ (keys : List String) (acc : Option JSObject),
      keys.foldl
          (fun (acc : Option Store) key => acc.bind (fun st =>
            (JSObject.assignKey (st.read prop.length) key ((st.read source).get key)).map
              (fun o => st.set prop.length o)))
          (acc.map (fun o => prop ++ [o]))
        = (keys.foldl
            (fun acc key => acc.bind
              (fun d => JSObject.assignKey d key ((Store.read prop source).get key)))
            acc).map (fun o => prop ++ [o])
  | [], _ => rfl
  | key :: rest, acc => by
      rw [List.foldl_cons, List.foldl_cons, ← Store.assign_fresh prop source hsource rest]
      congr 1
      cases acc with
      | none => rfl
      | some fresh =>
        simp only [Option.map_some', Option.some_bind, Store.read_append_length,
          Store.read_append_lt prop fresh source hsource, Store.set_append_length]

theorem Store.assign_append (prop : List JSObject) (fresh : JSObject) (source : Nat)
    (hsource : source < prop.length) :
    Store.assign (prop ++ [fresh]) prop.length source
      = (JSObject.assignFrom fresh (Store.read prop source)).map (fun o => prop ++ [o]) := by
  unfold Store.assign JSObject.assignFrom
  rw [Store.read_append_lt prop fresh source hsource]
  exact Store.assign_fresh prop source hsource _ (some fresh)

theorem Store.assignAll_append :
    ∀ (rest done : List JSObject) (fresh : JSObject),
      Store.assignAll (done ++ rest).length (done ++ rest ++ [fresh]) done.length rest.length
        = (rest.foldl (fun acc o => acc.bind (fun d => JSObject.assignFrom d o))
            (some fresh)).map (fun o => done ++ rest ++ [o])
  | [], done, fresh => by simp [Store.assignAll]
  | head :: rest, done, fresh => by
      have hlt : done.length < (done ++ head :: rest).length := by simp
      have hsplit : done ++ head :: rest = (done ++ [head]) ++ rest := by simp
      have hlen : (done ++ [head]).length = done.length + 1 := by simp
      show (Store.assign (done ++ head :: rest ++ [fresh]) (done ++ head :: rest).length
          done.length).bind
        (fun st => Store.assignAll (done ++ head :: rest).length st (done.length + 1)
          rest.length) = _
      rw [Store.assign_append _ fresh done.length hlt, Store.read_middle, List.foldl_cons,
        Option.some_bind]
      cases JSObject.assignFrom fresh head with
      | none =>
        rw [foldl_bind_none]
        rfl
      | some o =>
        rw [Option.map_some', Option.some_bind, hsplit, ← hlen,
          Store.assignAll_append rest (done ++ [head]) o]

theorem CreateEmitterFunction_call_eq (name : String) (prop : List JSObject) :
    CreateEmitterFunction.call name prop =
      (prop.foldl (fun acc o => acc.bind (fun d => JSObject.assignFrom d o)) (some [])).map
        (fun merged => (prop, [Effect.emit name (Value.record (JSObject.delete
          (JSObject.delete merged "target") "type"))])) := by
  have hall := Store.assignAll_append prop [] []
  simp only [List.nil_append, List.length_nil] at hall
  unfold CreateEmitterFunction.call
  simp only [hall]
  cases prop.foldl (fun acc o => acc.bind (fun d => JSObject.assignFrom d o)) (some []) with
  | none => rfl
  | some merged =>
    simp only [Option.map_some', Store.delete, Store.read_append_length,
      Store.set_append_length]
    rw [List.take_left]

/-! `Object.assign` on argument objects without an own key `__proto__` -/

theorem JSObject.assignFrom_fold_eq (source : JSObject) :
    ∀ (keys : List String) (dest : JSObject), "__proto__" ∉ keys →
      keys.foldl (fun acc key => acc.bind (fun d => JSObject.assignKey d key (source.get key)))
          (some dest)
        = some (keys.foldl (fun d key => JSObject.set d key (source.get key)) dest)
  | [], _, _ => rfl
  | key :: rest, dest, h => by
      have hkey : ¬ key = "__proto__" := fun e => h (e ▸ List.mem_cons_self _ _)
      rw [List.foldl_cons, List.foldl_cons, Option.some_bind]
      unfold JSObject.assignKey
      rw [if_neg hkey]
      exact JSObject.assignFrom_fold_eq source rest _
        (fun hr => h (List.mem_cons_of_mem _ hr))

theorem JSObject.assignFrom_eq_copyFrom (dest source : JSObject)
    (h : "__proto__" ∉ source.keys) :
    JSObject.assignFrom dest source = some (JSObject.copyFrom dest source) :=
  JSObject.assignFrom_fold_eq source source.keys dest h

theorem Object_assign_eq_copy :
    ∀ (sources : List JSObject) (dest : JSObject),
      (∀ o ∈ sources, "__proto__" ∉ JSObject.keys o) →
      sources.foldl (fun acc o => acc.bind (fun d => JSObject.assignFrom d o)) (some dest)
        = some (sources.foldl JSObject.copyFrom dest)
  | [], _, _ => rfl
  | head :: rest, dest, h => by
      rw [List.foldl_cons, List.foldl_cons, Option.some_bind,
        JSObject.assignFrom_eq_copyFrom dest head (h head (List.mem_cons_self _ _))]
      exact Object_assign_eq_copy rest _ (fun o ho => h o (List.mem_cons_of_mem _ ho))

theorem JSObject.nodup_keys_set (acc : JSObject) (key : String) (value : Value)
    (h : acc.keys.Nodup) : (JSObject.set acc key value).keys.Nodup := by
  rw [JSObject.keys_set]
  by_cases hmem : key ∈ acc.keys
  · rw [if_pos hmem]; exact h
  · rw [if_neg hmem]
    exact List.Nodup.append h (List.nodup_singleton key)
      (by
        intro a ha hb
        rw [List.mem_singleton] at hb
        exact hmem (hb ▸ ha))

theorem JSObject.mem_keys_set (acc : JSObject) (key : String) (value : Value)
    (other : String) :
    other ∈ (JSObject.set acc key value).keys ↔ other ∈ acc.keys ∨ other = key := by
  rw [JSObject.keys_set]
  by_cases hmem : key ∈ acc.keys
  · rw [if_pos hmem]
    constructor
    · exact Or.inl
    · rintro (h | h)
      · exact h
      · exact h ▸ hmem
  · rw [if_neg hmem, List.mem_append, List.mem_singleton]

theorem JSObject.copyFrom_spec (source : JSObject) (other : String) :
    ∀ (keys : List String) (acc : JSObject),
      ((keys.foldl (fun d key => JSObject.set d key (source.get key)) acc).get other =
          if other ∈ keys then source.get other else acc.get other) ∧
        (other ∈ (keys.foldl (fun d key => JSObject.set d key (source.get key)) acc).keys ↔
          other ∈ acc.keys ∨ other ∈ keys) ∧
        (acc.keys.Nodup →
          (keys.foldl (fun d key => JSObject.set d key (source.get key)) acc).keys.Nodup)
  | [], acc => by simp
  | key :: rest, acc => by
      obtain ⟨h1, h2, h3⟩ :=
        JSObject.copyFrom_spec source other rest (JSObject.set acc key (source.get key))
      rw [List.foldl_cons]
      refine ⟨?_, ?_, fun hn => h3 (JSObject.nodup_keys_set acc key _ hn)⟩
      · rw [h1, JSObject.get_set]
        by_cases hr : other ∈ rest
        · simp [hr]
        · by_cases hk : key = other
          · subst hk
            simp
          · have hk2 : ¬ other = key := fun e => hk e.symm
            simp [hr, hk, hk2]
      · rw [h2, JSObject.mem_keys_set, List.mem_cons]
        tauto

theorem Object_copy_spec (other : String) :
    ∀ (sources : List JSObject) (acc : JSObject),
      (other ∈ (sources.foldl JSObject.copyFrom acc).keys ↔
          other ∈ acc.keys ∨ ∃ o ∈ sources, other ∈ JSObject.keys o) ∧
        ((∀ o ∈ sources, other ∉ JSObject.keys o) →
          (sources.foldl JSObject.copyFrom acc).get other = acc.get other) ∧
        (acc.keys.Nodup → (sources.foldl JSObject.copyFrom acc).keys.Nodup)
  | [], acc => by simp
  | head :: rest, acc => by
      obtain ⟨h1, h2, h3⟩ := Object_copy_spec other rest (JSObject.copyFrom acc head)
      obtain ⟨k1, k2, k3⟩ := JSObject.copyFrom_spec head other (JSObject.keys head) acc
      rw [List.foldl_cons]
      refine ⟨?_, ?_, fun hn => h3 (k3 hn)⟩
      · rw [h1]
        unfold JSObject.copyFrom
        rw [k2]
        constructor
        · rintro ((h | h) | ⟨o, ho, h⟩)
          · exact Or.inl h
          · exact Or.inr ⟨head, List.mem_cons_self _ _, h⟩
          · exact Or.inr ⟨o, List.mem_cons_of_mem _ ho, h⟩
        · rintro (h | ⟨o, ho, h⟩)
          · exact Or.inl (Or.inl h)
          · rcases List.mem_cons.mp ho with e | e
            · exact Or.inl (Or.inr (e ▸ h))
            · exact Or.inr ⟨o, e, h⟩
      · intro hno
        rw [h2 (fun o ho => hno o (List.mem_cons_of_mem _ ho))]
        unfold JSObject.copyFrom
        rw [k1, if_neg (hno head (List.mem_cons_self _ _))]

/-! The forwarding function of `CreateEmitterFunction` -/

/-- C13 (as amended): called on any sequence of argument objects none of which has an own key
`__proto__`, the forwarding function built for a declared name emits exactly one notification,
under that name, and leaves the argument objects as they were.  The keys of the payload are
the keys of the arguments other than `target` and `type`, each once; the value of a key is its
value in the last argument that has the key. -/
theorem CreateEmitterFunction_call_merges (name : String) (prop : List JSObject)
    (hproto : ∀ o ∈ prop, "__proto__" ∉ JSObject.keys o) :
    ∃ payload : JSObject,
      CreateEmitterFunction.call name prop
        = some (prop, [Effect.emit name (Value.record payload)]) ∧
      (∀ key : String, key ∈ payload.keys ↔
        key ≠ "target" ∧ key ≠ "type" ∧ ∃ o ∈ prop, key ∈ JSObject.keys o) ∧
      payload.keys.Nodup ∧
      (∀ (key : String) (before : List JSObject) (o : JSObject) (after : List JSObject),
        prop = before ++ o :: after → key ∈ JSObject.keys o →
        (∀ later ∈ after, key ∉ JSObject.keys later) →
        key ≠ "target" → key ≠ "type" →
        payload.get key = JSObject.get o key) := by
  refine ⟨JSObject.delete (JSObject.delete (prop.foldl JSObject.copyFrom []) "target") "type",
    ?_, ?_, ?_, ?_⟩
  · rw [CreateEmitterFunction_call_eq, Object_assign_eq_copy prop [] hproto]
    rfl
  · intro key
    rw [JSObject.keys_delete, JSObject.keys_delete, List.mem_filter, List.mem_filter,
      (Object_copy_spec key prop []).1]
    simp only [JSObject.keys, List.map_nil, List.not_mem_nil, false_or, ne_eq,
      decide_eq_true_eq, decide_not, Bool.not_eq_true', decide_eq_false_iff_not]
    tauto
  · rw [JSObject.keys_delete, JSObject.keys_delete]
    exact ((Object_copy_spec "" prop []).2.2 List.nodup_nil).filter _ |>.filter _
  · intro key before o after hprop hkey hlater htarget htype
    rw [JSObject.get_delete, if_neg htype, JSObject.get_delete, if_neg htarget, hprop,
      List.foldl_append, List.foldl_cons, (Object_copy_spec key after _).2.1 hlater]
    unfold JSObject.copyFrom
    rw [(JSObject.copyFrom_spec o key (JSObject.keys o) _).1, if_pos hkey]

/-- Witness of C13 (as amended): the forwarding function of `selection-changed-event` is called
with an event object and a second object that shares the key `dbIdArray`. -/
theorem CreateEmitterFunction_call_merges_witness :
    (∀ o ∈ [[("type", Value.string "selection"), ("target", Value.object 7),
          ("dbIdArray", Value.number 3)],
        [("dbIdArray", Value.number 4), ("model", Value.object 9)]],
        "__proto__" ∉ JSObject.keys o) ∧
      CreateEmitterFunction.call "selection-changed-event"
          [[("type", Value.string "selection"), ("target", Value.object 7),
            ("dbIdArray", Value.number 3)],
           [("dbIdArray", Value.number 4), ("model", Value.object 9)]]
        = some ([[("type", Value.string "selection"), ("target", Value.object 7),
            ("dbIdArray", Value.number 3)],
           [("dbIdArray", Value.number 4), ("model", Value.object 9)]],
          [Effect.emit "selection-changed-event"
            (Value.record [("dbIdArray", Value.number 4), ("model", Value.object 9)])]) ∧
      ∃ payload : JSObject,
        CreateEmitterFunction.call "selection-changed-event"
            [[("type", Value.string "selection"), ("target", Value.object 7),
              ("dbIdArray", Value.number 3)],
             [("dbIdArray", Value.number 4), ("model", Value.object 9)]]
          = some ([[("type", Value.string "selection"), ("target", Value.object 7),
              ("dbIdArray", Value.number 3)],
             [("dbIdArray", Value.number 4), ("model", Value.object 9)]],
            [Effect.emit "selection-changed-event" (Value.record payload)]) ∧
        payload.keys.Nodup :=
  ⟨by decide, by decide,
    (CreateEmitterFunction_call_merges "selection-changed-event"
      [[("type", Value.string "selection"), ("target", Value.object 7),
        ("dbIdArray", Value.number 3)],
       [("dbIdArray", Value.number 4), ("model", Value.object 9)]] (by decide)).imp
      (fun _ h => ⟨h.1, h.2.2.1⟩)⟩

/-- Counterexample to C13 as stated: the argument object has the own keys `__proto__`, with a
number as value, and `x`.  The assignment of `__proto__` reaches the inherited setter, which
ignores a number; the payload has the key `x` only, so a key of the argument that is neither
`target` nor `type` is not kept. -/
theorem CreateEmitterFunction_call_drops_proto :
    CreateEmitterFunction.call "selection-changed-event"
        [[("__proto__", Value.number 1), ("x", Value.number 2)]]
      = some ([[("__proto__", Value.number 1), ("x", Value.number 2)]],
          [Effect.emit "selection-changed-event" (Value.record [("x", Value.number 2)])]) ∧
      "__proto__" ∈ JSObject.keys [("__proto__", Value.number 1), ("x", Value.number 2)] ∧
      "__proto__" ≠ "target" ∧ "__proto__" ≠ "type" ∧
      "__proto__" ∉ JSObject.keys [("x", Value.number 2)] :=
  ⟨by decide, by decide, by decide, by decide, by decide⟩

/-! `LaunchViewer` -/

theorem LaunchViewer_of_return (env : Platform) (self : ViewerService) (containerId : String)
    (getTokenMethod : Value)
    (h : (self.AutodeskViewing.Initializer (Value.record
      [("env", Value.string "AutodeskProduction"),
       ("getAccessToken", getTokenMethod)])).thrown = none) :
    self.LaunchViewer env containerId getTokenMethod =
      ({ self := { self with ViewerContainer := env.getElementById containerId },
         effects := [Effect.getElementById containerId,
           Effect.Initializer (Value.record [("env", Value.string "AutodeskProduction"),
             ("getAccessToken", getTokenMethod)])],
         thrown := none },
       if (self.AutodeskViewing.Initializer (Value.record
           [("env", Value.string "AutodeskProduction"),
            ("getAccessToken", getTokenMethod)])).callbackCalls > 0
       then PromiseState.fulfilled (Value.boolean true) else PromiseState.pending) := by
  simp only [ViewerService.LaunchViewer, h, PromiseState.resolve]

theorem LaunchViewer_of_throw (env : Platform) (self : ViewerService) (containerId : String)
    (getTokenMethod error : Value)
    (h : (self.AutodeskViewing.Initializer (Value.record
      [("env", Value.string "AutodeskProduction"),
       ("getAccessToken", getTokenMethod)])).thrown = some error) :
    self.LaunchViewer env containerId getTokenMethod =
      ({ self := { self with ViewerContainer := env.getElementById containerId },
         effects := [Effect.getElementById containerId,
           Effect.Initializer (Value.record [("env", Value.string "AutodeskProduction"),
             ("getAccessToken", getTokenMethod)]),
           Effect.emit "onError" error],
         thrown := none },
       if (self.AutodeskViewing.Initializer (Value.record
           [("env", Value.string "AutodeskProduction"),
            ("getAccessToken", getTokenMethod)])).callbackCalls > 0
       then PromiseState.fulfilled (Value.boolean true) else PromiseState.rejected error) := by
  by_cases hcalls : (self.AutodeskViewing.Initializer (Value.record
      [("env", Value.string "AutodeskProduction"),
       ("getAccessToken", getTokenMethod)])).callbackCalls > 0
  · simp [ViewerService.LaunchViewer, h, hcalls, PromiseState.resolve, PromiseState.reject,
      EmitError]
  · simp [ViewerService.LaunchViewer, h, hcalls, PromiseState.resolve, PromiseState.reject,
      EmitError]

/-- C14: `LaunchViewer` calls `Initializer` exactly once, with the options
`env: AutodeskProduction` and `getAccessToken:` the supplier, stores the container and never
throws.  An `Initializer` that throws, its completion callback not called, has exactly one
notification emitted, an `onError` with the thrown value, and the promise rejected with that
value; a callback that comes after the rejection changes nothing.  An `Initializer` that does
not throw has nothing emitted.  An `Initializer` that calls its completion callback during the
call has the promise fulfilled with `true`; one that returns without having called it has the
promise pending, and the callback, once it comes, fulfils it with `true`. -/
theorem LaunchViewer_settles (env : Platform) (self : ViewerService) (containerId : String)
    (getTokenMethod : Value) :
    initializerCalls (self.LaunchViewer env containerId getTokenMethod).1.effects
        = [Value.record [("env", Value.string "AutodeskProduction"),
            ("getAccessToken", getTokenMethod)]] ∧
      (self.LaunchViewer env containerId getTokenMethod).1.thrown = none ∧
      (self.LaunchViewer env containerId getTokenMethod).1.self
        = { self with ViewerContainer := env.getElementById containerId } ∧
      (∀ error : Value,
        (self.AutodeskViewing.Initializer (Value.record
          [("env", Value.string "AutodeskProduction"),
           ("getAccessToken", getTokenMethod)])).thrown = some error →
        notifications (self.LaunchViewer env containerId getTokenMethod).1.effects
            = [("onError", error)] ∧
          ((self.AutodeskViewing.Initializer (Value.record
              [("env", Value.string "AutodeskProduction"),
               ("getAccessToken", getTokenMethod)])).callbackCalls = 0 →
            (self.LaunchViewer env containerId getTokenMethod).2
                = PromiseState.rejected error ∧
              ViewerService.LaunchViewer.callback
                  (self.LaunchViewer env containerId getTokenMethod).2
                = PromiseState.rejected error)) ∧
      ((self.AutodeskViewing.Initializer (Value.record
          [("env", Value.string "AutodeskProduction"),
           ("getAccessToken", getTokenMethod)])).thrown = none →
        notifications (self.LaunchViewer env containerId getTokenMethod).1.effects = [] ∧
          ((self.AutodeskViewing.Initializer (Value.record
              [("env", Value.string "AutodeskProduction"),
               ("getAccessToken", getTokenMethod)])).callbackCalls = 0 →
            (self.LaunchViewer env containerId getTokenMethod).2 = PromiseState.pending ∧
              ViewerService.LaunchViewer.callback
                  (self.LaunchViewer env containerId getTokenMethod).2
                = PromiseState.fulfilled (Value.boolean true))) ∧
      ((self.AutodeskViewing.Initializer (Value.record
          [("env", Value.string "AutodeskProduction"),
           ("getAccessToken", getTokenMethod)])).callbackCalls > 0 →
        (self.LaunchViewer env containerId getTokenMethod).2
          = PromiseState.fulfilled (Value.boolean true)) := by
  cases hthrown : (self.AutodeskViewing.Initializer (Value.record
      [("env", Value.string "AutodeskProduction"), ("getAccessToken", getTokenMethod)])).thrown
    with
  | none =>
    rw [LaunchViewer_of_return env self containerId getTokenMethod hthrown]
    refine ⟨rfl, rfl, rfl, ?_, ?_, ?_⟩
    · intro error h
      exact absurd h (by simp)
    · intro _
      refine ⟨rfl, ?_⟩
      intro hcalls
      simp [hcalls, ViewerService.LaunchViewer.callback, PromiseState.resolve]
    · intro hcalls
      simp [hcalls]
  | some thrown =>
    rw [LaunchViewer_of_throw env self containerId getTokenMethod thrown hthrown]
    refine ⟨rfl, rfl, rfl, ?_, ?_, ?_⟩
    · intro error h
      have he : thrown = error := Option.some.inj h
      subst he
      refine ⟨rfl, ?_⟩
      intro hcalls
      simp [hcalls, ViewerService.LaunchViewer.callback, PromiseState.resolve]
    · intro h
      exact absurd h (by simp)
    · intro hcalls
      simp [hcalls]

end ForgeVuer
